import Mathlib

/-!
# readelf.go : a verification development

A shallow embedding of `readelf.go`, a command-line front end over Go's
`debug/elf` package, together with theorems about its argument loop, the
order in which it prints its views, and the way it ends on errors.

Conventions of the embedding.

* A Go `string` is a Lean `String`; `strings.HasPrefix`, `strings.Contains`
  and `strings.Replace` work on its list of characters. The texts the
  program searches for are ASCII, for which the byte-wise search of Go and
  the character-wise search agree on UTF-8 text.
* Unsigned machine integers are natural numbers.
* `fmt.Printf`, `log.Fatal`, `os.Exit`, `elf.Open` and the deferred
  `Close` are effects: a program fragment is a value of `Run α`, which
  holds the events made so far and either a result or an exit status.
* What `debug/elf` computes (`elf.Open`, the four lookups of a file and the
  `String` methods of its types) is not part of the repository: it is a
  parameter of the embedding.
-/

namespace Readelf

/-! ## Go library primitives used by the program -/

/-- The Go call `strings.HasPrefix(s, pre)`. -/
def HasPrefix (s pre : String) : Bool :=
  pre.data.isPrefixOf s.data

/-- Search of `sub` at every position of a character list. -/
def containsChars : List Char → List Char → Bool
  | [], sub => sub.isEmpty
  | c :: cs, sub => sub.isPrefixOf (c :: cs) || containsChars cs sub

/-- The Go call `strings.Contains(s, substr)`. -/
def Contains (s substr : String) : Bool :=
  containsChars s.data substr.data

/-- Left-to-right replacement of the non-overlapping occurrences of a
non-empty `old`; `skip` counts the characters of a match still to drop. -/
def replaceChars (old new : List Char) : List Char → Nat → List Char
  | [], _ => []
  | _ :: cs, skip + 1 => replaceChars old new cs skip
  | c :: cs, 0 =>
    if old.isPrefixOf (c :: cs) then new ++ replaceChars old new cs (old.length - 1)
    else c :: replaceChars old new cs 0

/-- The Go call `strings.Replace(s, old, new, -1)`: every occurrence is
replaced; an empty `old` matches before every character and at the end. -/
def Replace (s old new : String) : String :=
  if old.data = [] then
    ⟨new.data ++ s.data.flatMap (fun c => c :: new.data)⟩
  else
    ⟨replaceChars old.data new.data s.data 0⟩

/-- A Go `error` value, known by the text of its `Error()` method. -/
structure GoError where
  Error : String
  deriving DecidableEq, Repr

/-- An operand handed to `fmt.Printf`. -/
inductive Arg where
  | int (n : Nat)
  | str (s : String)
  deriving DecidableEq, Repr

/-- An observable effect of the program. -/
inductive Event where
  /-- A call `fmt.Printf(format, args...)`, writing to standard output. -/
  | printf (format : String) (args : List Arg)
  /-- The line `log.Fatal(err)` writes (to standard output, see `init`). -/
  | log (err : GoError)
  /-- A call `elf.Open(name)`. -/
  | open (name : String)
  /-- The deferred `elfFile.Close()`. -/
  | close
  deriving DecidableEq, Repr

/-- The outcome of running a program fragment: the events it made and
either the value it fell through with or the status it exited with. -/
inductive Run (α : Type) where
  | done (out : List Event) (a : α)
  | exit (out : List Event) (status : Nat)
  deriving DecidableEq, Repr

namespace Run

/-- The events of a run. -/
def out {α : Type} : Run α → List Event
  | done o _ => o
  | exit o _ => o

/-- The exit status of the process: 0 when `main` returns. -/
def status {α : Type} : Run α → Nat
  | done _ _ => 0
  | exit _ s => s

/-- Sequencing: an exit stops the run and keeps the events made so far. -/
def bind {α β : Type} (m : Run α) (f : α → Run β) : Run β :=
  match m with
  | exit o s => exit o s
  | done o a =>
    match f a with
    | done o2 b => done (o ++ o2) b
    | exit o2 s => exit (o ++ o2) s

instance : Monad Run where
  pure a := done [] a
  bind := bind

end Run

/-- The Go call `fmt.Printf(format, args...)`. -/
def Printf (format : String) (args : List Arg) : Run Unit :=
  .done [.printf format args] ()

/-- The Go call `os.Exit(code)`: deferred calls do not run. -/
def osExit {α : Type} (code : Nat) : Run α :=
  .exit [] code

/-- The Go call `log.Fatal(err)`: print the error, then `os.Exit(1)`. -/
def logFatal {α : Type} (err : GoError) : Run α :=
  .exit [.log err] 1

/-- A run with the events `o` made before it. -/
def Run.prepend {α : Type} (o : List Event) : Run α → Run α
  | .done o2 a => .done (o ++ o2) a
  | .exit o2 s => .exit (o ++ o2) s

/-- A body run under `defer elfFile.Close()`: the file is closed when
the body returns, not when the process exits. -/
def deferClose (body : Run Unit) : Run Unit :=
  match body with
  | .done o a => .done (o ++ [.close]) a
  | .exit o s => .exit o s

/-! ## The data the program reads from `debug/elf` -/

/-- The fields of `elf.Section` that `showSections` prints. -/
structure Section where
  Name : String
  Type_ : Nat
  Flags : Nat
  Addr : Nat
  Offset : Nat
  Size : Nat
  Link : Nat
  Info : Nat
  Addralign : Nat
  Entsize : Nat
  deriving DecidableEq, Repr

/-- The fields of `elf.Prog` that `showProgram` prints. -/
structure Prog where
  Type_ : Nat
  Flags : Nat
  Off : Nat
  Vaddr : Nat
  Paddr : Nat
  Filesz : Nat
  Memsz : Nat
  Align : Nat
  deriving DecidableEq, Repr

/-- The fields of `elf.Symbol` that `showSymbols` prints. -/
structure Symbol where
  Name : String
  Info : Nat
  Other : Nat
  Section : Nat
  Value : Nat
  Size : Nat
  deriving DecidableEq, Repr

/-- The Go type `elf.ImportedSymbol`. -/
structure ImportedSymbol where
  Name : String
  Version : String
  Library : String
  deriving DecidableEq, Repr

/-- An open `*elf.File`: the header fields and tables the program prints,
and the results of its four lookups. -/
structure File where
  Class : Nat
  Data : Nat
  Version : Nat
  OSABI : Nat
  ABIVersion : Nat
  ByteOrder : Nat
  Type_ : Nat
  Machine : Nat
  Entry : Nat
  Sections : List Section
  Progs : List Prog
  Symbols : Except GoError (List Symbol)
  DynamicSymbols : Except GoError (List Symbol)
  ImportedLibraries : Except GoError (List String)
  ImportedSymbols : Except GoError (List ImportedSymbol)

/-- The `String()` methods of the `debug/elf` and `encoding/binary` types
the program formats with `%s`. -/
structure Stringers where
  Class : Nat → String
  Version : Nat → String
  Data : Nat → String
  OSABI : Nat → String
  ByteOrder : Nat → String
  Type_ : Nat → String
  Machine : Nat → String
  SectionType : Nat → String
  SectionFlag : Nat → String
  ProgType : Nat → String
  ProgFlag : Nat → String
  SectionIndex : Nat → String

/-! ## The program -/

/-- The package-level variables of `readelf.go`. -/
structure Globals where
  elfPath : String
  isShowHeader : Bool
  isShowSection : Bool
  isShowProgram : Bool
  isShowSymbols : Bool
  isShowDynamicSymbols : Bool
  isShowAll : Bool
  isShowImportedLibraries : Bool
  isShowImportedSymbols : Bool
  deriving DecidableEq, Repr

/-- The zero values the package-level variables start with. -/
def Globals.zero : Globals :=
  ⟨"", false, false, false, false, false, false, false, false⟩

/-- One iteration of the loop `for i, arg := range os.Args` of `main`. -/
def argStep (g : Globals) (i : Nat) (arg : String) : Globals :=
  if i = 0 then g
  else if HasPrefix arg "-" then
    let g := if Contains arg "a" then { g with isShowAll := true } else g
    let g := if Contains arg "h" then { g with isShowHeader := true } else g
    let g := if Contains arg "S" then { g with isShowSection := true } else g
    let g := if Contains arg "l" then { g with isShowProgram := true } else g
    let g := if Contains arg "s" then { g with isShowSymbols := true } else g
    let g := if Contains arg "d" then { g with isShowDynamicSymbols := true } else g
    let g := if Contains arg "I" then { g with isShowImportedLibraries := true } else g
    let g := if Contains arg "i" then { g with isShowImportedSymbols := true } else g
    g
  else { g with elfPath := arg }

/-- The loop over `os.Args`, from index `i` on, starting in state `g`. -/
def argLoopFrom : Nat → Globals → List String → Globals
  | _, g, [] => g
  | i, g, arg :: rest => argLoopFrom (i + 1) (argStep g i arg) rest

/-- The argument loop of `main`, run on `os.Args` from the zero values. -/
def argLoop (args : List String) : Globals :=
  argLoopFrom 0 Globals.zero args

/-- The function `showUsage`. -/
def showUsage : Run Unit := do
  Printf "Usage: readelf [-hSlsdaIi] elfPath\n" []
  Printf "  -h: ELF File Header\n" []
  Printf "  -S: ELF Sections\n" []
  Printf "  -l: ELF Programs\n" []
  Printf "  -s: ELF Symbols\n" []
  Printf "  -d: ELF DynamicSymbols\n" []
  Printf "  -I: ELF ImportedLibraries\n" []
  Printf "  -i: ELF ImportedSymbols\n" []
  Printf "  -a: All above\n" []

/-- The function `showHeader`. -/
def showHeader (S : Stringers) (file : File) : Run Unit := do
  Printf "ELF File Header:\n" []
  Printf "  Class:      %s\n" [.str (S.Class file.Class)]
  Printf "  Version:    %s\n" [.str (S.Version file.Version)]
  Printf "  Data:       %s\n" [.str (S.Data file.Data)]
  Printf "  OSABI:      %s\n" [.str (S.OSABI file.OSABI)]
  Printf "  ABIVersion: %d\n" [.int file.ABIVersion]
  Printf "  ByteOrder:  %s\n" [.str (S.ByteOrder file.ByteOrder)]
  Printf "  Type:       %s\n" [.str (S.Type_ file.Type_)]
  Printf "  Machine:    %s\n" [.str (S.Machine file.Machine)]
  Printf "  Entry:      %d\n" [.int file.Entry]

/-- The function `showSections`. -/
def showSections (S : Stringers) (sections : List Section) : Run Unit := do
  Printf "ELF Sections:\n" []
  Printf "  [%2s] %-25s %-15s %-8s %-8s %-8s %2s %3s %3s %3s %4s\n"
    [.str "Nr", .str "Name", .str "Type", .str "Addr", .str "Off", .str "Size",
     .str "ES", .str "Flg", .str "Lk", .str "Inf", .str "Al"]
  for (i, sec) in sections.enum do
    Printf "  [%2d] %-25s %-15s %08x %08x %08x %02x %3s %3d %3d %4x\n"
      [.int i, .str sec.Name,
       .str (Replace (S.SectionType sec.Type_) "SHT_" ""),
       .int sec.Addr, .int sec.Offset, .int sec.Size, .int sec.Entsize,
       .str (Replace (S.SectionFlag sec.Flags) "SHF_" ""),
       .int sec.Link, .int sec.Info, .int sec.Addralign]

/-- The function `showProgram`. -/
def showProgram (S : Stringers) (progs : List Prog) : Run Unit := do
  Printf "ELF Programs:\n" []
  Printf "  [%2s] %-20s %-8s %-8s %-8s %-8s %-8s %3s %5s\n"
    [.str "Nr", .str "Type", .str "Offset", .str "VirtAddr", .str "PhysAddr",
     .str "FileSiz", .str "MemSiz", .str "Flg", .str "Align"]
  for (i, prog) in progs.enum do
    Printf "  [%2d] %-20s %08x %08x %08x %08x %08x %3s %5d\n"
      [.int i, .str (Replace (S.ProgType prog.Type_) "PT_" ""),
       .int prog.Off, .int prog.Vaddr, .int prog.Paddr, .int prog.Filesz,
       .int prog.Memsz,
       .str (Replace (S.ProgFlag prog.Flags) "PF_" ""),
       .int prog.Align]

/-- The function `showSymbols`. -/
def showSymbols (S : Stringers) (symbols : List Symbol) (title : String) : Run Unit := do
  Printf "ELF %s:\n" [.str title]
  Printf "  [%2s] %-30s %-10s %-8s %-8s %3s %3s\n"
    [.str "Nr", .str "Name", .str "Section", .str "Value", .str "Size",
     .str "Inf", .str "Oth"]
  for (i, symbol) in symbols.enum do
    Printf "  [%2d] %-30s %-10s %08x %08x %3d %3d\n"
      [.int i, .str symbol.Name,
       .str (Replace (S.SectionIndex symbol.Section) "SHN_" ""),
       .int symbol.Value, .int symbol.Size, .int symbol.Info, .int symbol.Other]

/-- The function `showImportedLibraries`. -/
def showImportedLibraries (libraries : List String) : Run Unit := do
  Printf "ELF ImportedLibraries:\n" []
  Printf "  [%2s] %s\n" [.str "Nr", .str "Name"]
  for (i, library) in libraries.enum do
    Printf "  [%2d] %-30s\n" [.int i, .str library]

/-- The function `showImportedSymbols`. -/
def showImportedSymbols (symbols : List ImportedSymbol) : Run Unit := do
  Printf "ELF ImportedSymbols:\n" []
  Printf "  [%2s] %-30s %-10s %s\n" [.str "Nr", .str "Name", .str "Version", .str "Library"]
  for (i, symbol) in symbols.enum do
    Printf "  [%2d] %-30s %-10s %s\n"
      [.int i, .str symbol.Name, .str symbol.Version, .str symbol.Library]

/-- The Go call `elf.Open(name)`, with the library's result as a parameter. -/
def elfOpen (Open : String → Except GoError File) (name : String) :
    Run (Except GoError File) :=
  .done [.open name] (Open name)

/-- The function `main`, run on the argument list `os.Args`. -/
def main (S : Stringers) (Open : String → Except GoError File) (args : List String) :
    Run Unit := do
  let g := argLoop args
  if g.elfPath = "" then
    showUsage
    osExit 1
  match ← elfOpen Open g.elfPath with
  | .error err => logFatal err
  | .ok elfFile =>
    deferClose do
      if g.isShowHeader || g.isShowAll then
        showHeader S elfFile
      if g.isShowSection || g.isShowAll then
        showSections S elfFile.Sections
      if g.isShowProgram || g.isShowAll then
        showProgram S elfFile.Progs
      if g.isShowSymbols || g.isShowAll then
        match elfFile.Symbols with
        | .error err => logFatal err
        | .ok symbols => showSymbols S symbols "Symbols"
      if g.isShowDynamicSymbols || g.isShowAll then
        match elfFile.DynamicSymbols with
        | .error err => logFatal err
        | .ok symbols => showSymbols S symbols "DynamicSymbols"
      if g.isShowImportedLibraries || g.isShowAll then
        match elfFile.ImportedLibraries with
        | .error err => logFatal err
        | .ok libraries => showImportedLibraries libraries
      if g.isShowImportedSymbols || g.isShowAll then
        match elfFile.ImportedSymbols with
        | .error err => logFatal err
        | .ok symbols => showImportedSymbols symbols

/-! ## The views of the program, in the order `main` prints them -/

/-- The seven views `main` can print. -/
inductive View where
  | header
  | sections
  | programs
  | symbols
  | dynamicSymbols
  | importedLibraries
  | importedSymbols
  deriving DecidableEq, Repr

/-- The views in the fixed order of `main`. -/
def View.all : List View :=
  [.header, .sections, .programs, .symbols, .dynamicSymbols, .importedLibraries,
   .importedSymbols]

/-- The position of a view in the fixed order of `main`. -/
def View.order : View → Nat
  | .header => 0
  | .sections => 1
  | .programs => 2
  | .symbols => 3
  | .dynamicSymbols => 4
  | .importedLibraries => 5
  | .importedSymbols => 6

/-- The guard of a view in `main`: its own flag or the flag of `-a`. -/
def requested (g : Globals) : View → Bool
  | .header => g.isShowHeader || g.isShowAll
  | .sections => g.isShowSection || g.isShowAll
  | .programs => g.isShowProgram || g.isShowAll
  | .symbols => g.isShowSymbols || g.isShowAll
  | .dynamicSymbols => g.isShowDynamicSymbols || g.isShowAll
  | .importedLibraries => g.isShowImportedLibraries || g.isShowAll
  | .importedSymbols => g.isShowImportedSymbols || g.isShowAll

/-- The flag of a view alone, without the flag of `-a`. -/
def ownFlag (g : Globals) : View → Bool
  | .header => g.isShowHeader
  | .sections => g.isShowSection
  | .programs => g.isShowProgram
  | .symbols => g.isShowSymbols
  | .dynamicSymbols => g.isShowDynamicSymbols
  | .importedLibraries => g.isShowImportedLibraries
  | .importedSymbols => g.isShowImportedSymbols

/-- The error of the lookup a view needs, when that lookup fails. -/
def lookupError (f : File) : View → Option GoError
  | .header => none
  | .sections => none
  | .programs => none
  | .symbols => match f.Symbols with | .error err => some err | .ok _ => none
  | .dynamicSymbols => match f.DynamicSymbols with | .error err => some err | .ok _ => none
  | .importedLibraries =>
    match f.ImportedLibraries with | .error err => some err | .ok _ => none
  | .importedSymbols => match f.ImportedSymbols with | .error err => some err | .ok _ => none

/-- The body of the guarded statement of a view in `main`. -/
def viewRun (S : Stringers) (f : File) : View → Run Unit
  | .header => showHeader S f
  | .sections => showSections S f.Sections
  | .programs => showProgram S f.Progs
  | .symbols =>
    match f.Symbols with
    | .error err => logFatal err
    | .ok symbols => showSymbols S symbols "Symbols"
  | .dynamicSymbols =>
    match f.DynamicSymbols with
    | .error err => logFatal err
    | .ok symbols => showSymbols S symbols "DynamicSymbols"
  | .importedLibraries =>
    match f.ImportedLibraries with
    | .error err => logFatal err
    | .ok libraries => showImportedLibraries libraries
  | .importedSymbols =>
    match f.ImportedSymbols with
    | .error err => logFatal err
    | .ok symbols => showImportedSymbols symbols

/-- What a view prints for a file whose lookup succeeds. -/
def block (S : Stringers) (f : File) (v : View) : List Event :=
  (viewRun S f v).out

/-- The guarded statements of a list of views, one after the other. -/
def runViews (S : Stringers) (g : Globals) (f : File) : List View → Run Unit
  | [] => pure ()
  | v :: vs => do
    if requested g v then
      viewRun S f v
    runViews S g f vs

/-- The views that come before `v` in the fixed order. -/
def viewsBefore (v : View) : List View :=
  View.all.filter (fun w => decide (w.order < v.order))

/-- The views that come after `v` in the fixed order. -/
def viewsAfter (v : View) : List View :=
  View.all.filter (fun w => decide (v.order < w.order))

/-- The blocks of the requested views among `vs`, in order. -/
def blocks (S : Stringers) (g : Globals) (f : File) (vs : List View) : List Event :=
  (vs.filter (requested g)).flatMap (block S f)

/-- The first line of a view: the call of `Printf` that opens its function. -/
def viewTitle : View → Event
  | .header => .printf "ELF File Header:\n" []
  | .sections => .printf "ELF Sections:\n" []
  | .programs => .printf "ELF Programs:\n" []
  | .symbols => .printf "ELF %s:\n" [.str "Symbols"]
  | .dynamicSymbols => .printf "ELF %s:\n" [.str "DynamicSymbols"]
  | .importedLibraries => .printf "ELF ImportedLibraries:\n" []
  | .importedSymbols => .printf "ELF ImportedSymbols:\n" []

/-- A view is printed in a run when its first line is among the events. -/
def Printed (v : View) (out : List Event) : Prop :=
  viewTitle v ∈ out

instance (v : View) (out : List Event) : Decidable (Printed v out) :=
  inferInstanceAs (Decidable (viewTitle v ∈ out))

/-- The letter of the flag of a view. -/
def flagLetter : View → Char
  | .header => 'h'
  | .sections => 'S'
  | .programs => 'l'
  | .symbols => 's'
  | .dynamicSymbols => 'd'
  | .importedLibraries => 'I'
  | .importedSymbols => 'i'

/-- Some argument after the program name starts with `-` and has the
letter `c` in it. -/
def FlagGiven (args : List String) (c : Char) : Prop :=
  ∃ arg ∈ args.tail, arg.data.head? = some '-' ∧ c ∈ arg.data

instance (args : List String) (c : Char) : Decidable (FlagGiven args c) :=
  inferInstanceAs (Decidable (∃ arg ∈ args.tail, arg.data.head? = some '-' ∧ c ∈ arg.data))

/-! ## The decoder, modelled from the specification

`debug/elf` is a library the repository calls and does not contain. What
the claims say about its results is stated against the definitions below,
which follow the words of the specification. -/

/-- Modelled from the spec: the fixed 4-byte magic signature of §4.2, the
bytes 0x7f, E, L, F; the decoder of `debug/elf` is not in the repository. -/
def ELFMAG : List Nat := [0x7f, 0x45, 0x4c, 0x46]

/-- Modelled from the spec: the error kind BadMagic of §7, the "not ELF"
error of §4.2; the decoder of `debug/elf` is not in the repository. -/
def BadMagic : GoError := ⟨"not ELF"⟩

/-- Modelled from the spec: the error kind OutOfBounds of §7; the decoder
of `debug/elf` is not in the repository. -/
def OutOfBounds : GoError := ⟨"out of bounds"⟩

/-- Modelled from the spec: the bounds-checked read of §4.1, which
validates that offset + width is at most the buffer length; the decoder of
`debug/elf` is not in the repository. -/
def readAt (buf : List Nat) (offset width : Nat) : Except GoError (List Nat) :=
  if offset + width ≤ buf.length then .ok ((buf.drop offset).take width)
  else .error OutOfBounds

/-- Modelled from the spec: the first step of the Header Decoder of §4.2,
which validates the magic signature at offset 0 and fails with a "not ELF"
error if absent; the decoding that follows is the parameter `rest`. The
decoder of `debug/elf` is not in the repository. -/
def decodeFile (rest : List Nat → Except GoError File) (buf : List Nat) :
    Except GoError File :=
  match readAt buf 0 4 with
  | .error err => .error err
  | .ok magic => if magic = ELFMAG then rest buf else .error BadMagic

/-- Modelled from the spec: `elf.Open` after §6, the whole file is loaded
into a buffer (`readFile`) and then decoded; `debug/elf` is not in the
repository. -/
def specOpen (readFile : String → Except GoError (List Nat))
    (rest : List Nat → Except GoError File) (name : String) : Except GoError File :=
  match readFile name with
  | .error err => .error err
  | .ok buf => decodeFile rest buf

/-- Modelled from the spec: a version-requirement record of §4.7, a library
name with its list of (version string, version index); `debug/elf` is not
in the repository. -/
structure VersionRequirement where
  library : String
  versions : List (String × Nat)
  deriving DecidableEq, Repr

/-- Modelled from the spec: the optional tables of a decoded file (§3,
§4.5 to §4.7). A table the file does not have is `none`; a table it has
holds the result of decoding it, a structural failure being fatal to the
lookup (§7). `needed` is the needed-library list of the dynamic section,
`versym` the per-symbol version indices parallel to the dynamic symbol
table. The spec does not say what `Symbols()` and `DynamicSymbols()` give
for a file without the table (§4.5 starts from the section, §9 names the
dynamic section and versioning only): those two results are left open, as
the fields `noSymtab` and `noDynsym`. The decoder of `debug/elf` is not in
the repository. -/
structure Tables where
  symtab : Option (Except GoError (List Symbol))
  dynsym : Option (Except GoError (List Symbol))
  needed : Option (Except GoError (List String))
  versym : Option (Except GoError (List Nat))
  verneed : Option (Except GoError (List VersionRequirement))
  noSymtab : Except GoError (List Symbol)
  noDynsym : Except GoError (List Symbol)

/-- Modelled from the spec: the walk of the version-requirement records of
§4.7 "to find the entry whose index matches", giving the matched version
string and that record's library name; `debug/elf` is not in the
repository. -/
def findVersion : List VersionRequirement → Nat → Option (String × String)
  | [], _ => none
  | r :: rs, idx =>
    match r.versions.find? (fun p => p.2 == idx) with
    | some p => some (p.1, r.library)
    | none => findVersion rs idx

/-- Modelled from the spec: the Version Resolver of §4.7 on the dynamic
symbol number `k`: a symbol with no version index, an index of 0 or 1, or
an unresolved index is excluded; `debug/elf` is not in the repository. -/
def resolveSymbol (reqs : List VersionRequirement) (versym : List Nat) (k : Nat)
    (sym : Symbol) : Option ImportedSymbol :=
  match versym[k]? with
  | none => none
  | some idx =>
    if idx = 0 ∨ idx = 1 then none
    else
      match findVersion reqs idx with
      | none => none
      | some (ver, lib) => some ⟨sym.Name, ver, lib⟩

/-- Modelled from the spec: the Version Resolver of §4.7 over the dynamic
symbols from number `k` on, in table order; `debug/elf` is not in the
repository. -/
def resolveFrom (reqs : List VersionRequirement) (versym : List Nat) :
    Nat → List Symbol → List ImportedSymbol
  | _, [] => []
  | k, sym :: rest =>
    match resolveSymbol reqs versym k sym with
    | none => resolveFrom reqs versym (k + 1) rest
    | some s => s :: resolveFrom reqs versym (k + 1) rest

/-- Modelled from the spec: §9, a missing optional table (no dynamic
section, no versioning) is an empty result, not an error; `debug/elf` is
not in the repository. -/
def orEmpty {α : Type} : Option (Except GoError (List α)) → Except GoError (List α)
  | none => .ok []
  | some r => r

/-- Modelled from the spec: the lookup `Symbols()` over the tables of a
file (§4.5), the decoding of the symbol table that is there; for a file
without symbol table the spec fixes no result and the lookup gives the
open `noSymtab`. `debug/elf` is not in the repository. -/
def specSymbols (t : Tables) : Except GoError (List Symbol) :=
  match t.symtab with
  | none => t.noSymtab
  | some r => r

/-- Modelled from the spec: the lookup `DynamicSymbols()` over the tables
of a file (§4.5), the decoding of the dynamic symbol table that is there;
for a file without that table the spec fixes no result and the lookup
gives the open `noDynsym`. `debug/elf` is not in the repository. -/
def specDynamicSymbols (t : Tables) : Except GoError (List Symbol) :=
  match t.dynsym with
  | none => t.noDynsym
  | some r => r

/-- Modelled from the spec: the lookup `ImportedLibraries()` over the
tables of a file (§3, §4.6, §9); `debug/elf` is not in the repository. -/
def specImportedLibraries (t : Tables) : Except GoError (List String) :=
  orEmpty t.needed

/-- Modelled from the spec: the lookup `ImportedSymbols()` over the tables
of a file (§4.7): the dynamic symbols are decoded, then joined with the
version indices and the version-requirement records; without versioning
every symbol is excluded. `debug/elf` is not in the repository. -/
def specImportedSymbols (t : Tables) : Except GoError (List ImportedSymbol) :=
  match specDynamicSymbols t with
  | .error err => .error err
  | .ok syms =>
    match t.versym with
    | none => .ok []
    | some (.error err) => .error err
    | some (.ok versym) =>
      match orEmpty t.verneed with
      | .error err => .error err
      | .ok reqs => .ok (resolveFrom reqs versym 0 syms)

/-- Modelled from the spec: an open file whose four lookups are the
modelled decoders over the tables `t`; header, sections and programs are
those of `base`. `debug/elf` is not in the repository. -/
def specFile (base : File) (t : Tables) : File :=
  { base with
    Symbols := specSymbols t
    DynamicSymbols := specDynamicSymbols t
    ImportedLibraries := specImportedLibraries t
    ImportedSymbols := specImportedSymbols t }

/-- The file has not the optional table of a view: the symbol table, the
dynamic symbol table, the dynamic section, the versioning table. -/
def Lacks (t : Tables) : View → Prop
  | .header => False
  | .sections => False
  | .programs => False
  | .symbols => t.symtab = none
  | .dynamicSymbols => t.dynsym = none
  | .importedLibraries => t.needed = none
  | .importedSymbols => t.versym = none

instance (t : Tables) (v : View) : Decidable (Lacks t v) :=
  match v with
  | .header => isFalse (fun h => h)
  | .sections => isFalse (fun h => h)
  | .programs => isFalse (fun h => h)
  | .symbols => decidable_of_iff (t.symtab.isNone = true) Option.isNone_iff_eq_none
  | .dynamicSymbols => decidable_of_iff (t.dynsym.isNone = true) Option.isNone_iff_eq_none
  | .importedLibraries => decidable_of_iff (t.needed.isNone = true) Option.isNone_iff_eq_none
  | .importedSymbols => decidable_of_iff (t.versym.isNone = true) Option.isNone_iff_eq_none

/-- A view with no rows: its first line and its heading. -/
def emptyView (S : Stringers) : View → List Event
  | .header => []
  | .sections => (showSections S []).out
  | .programs => (showProgram S []).out
  | .symbols => (showSymbols S [] "Symbols").out
  | .dynamicSymbols => (showSymbols S [] "DynamicSymbols").out
  | .importedLibraries => (showImportedLibraries []).out
  | .importedSymbols => (showImportedSymbols []).out

/-! ## Example inputs -/

/-- Stringers that print every code as the empty string. -/
def exStringers : Stringers :=
  ⟨fun _ => "", fun _ => "", fun _ => "", fun _ => "", fun _ => "", fun _ => "",
   fun _ => "", fun _ => "", fun _ => "", fun _ => "", fun _ => "", fun _ => ""⟩

/-- A file with one section, two needed libraries of the same name and one
imported symbol. -/
def exFile : File :=
  { Class := 2, Data := 1, Version := 1, OSABI := 0, ABIVersion := 0, ByteOrder := 0,
    Type_ := 3, Machine := 62, Entry := 4096,
    Sections := [⟨".text", 1, 6, 4096, 4096, 16, 0, 0, 16, 0⟩],
    Progs := [],
    Symbols := .ok [],
    DynamicSymbols := .ok [⟨"printf", 18, 0, 0, 0, 0⟩],
    ImportedLibraries := .ok ["libc.so.6", "libc.so.6"],
    ImportedSymbols := .ok [⟨"printf", "GLIBC_2.2.5", "libc.so.6"⟩] }

/-- The file `exFile` with a failing `Symbols()`. -/
def exFileNoSymbols : File :=
  { exFile with Symbols := .error ⟨"bad symbol table"⟩ }

/-- The error value `elf.ErrNoSymbols`, "no symbol section", which the
documentation of `debug/elf` gives as the result of `Symbols()` and
`DynamicSymbols()` on a file with no such section. -/
def ErrNoSymbols : GoError := ⟨"no symbol section"⟩

/-- Tables of a file with none of the optional tables, read by a library
that reports a missing symbol section as `ErrNoSymbols`. -/
def exTablesNone : Tables :=
  { symtab := none, dynsym := none, needed := none, versym := none, verneed := none,
    noSymtab := .error ErrNoSymbols, noDynsym := .error ErrNoSymbols }

/-- Tables of a file with four dynamic symbols, of version index 2, 1, 0
and 7, and one version-requirement record that knows index 2. -/
def exTablesVersioned : Tables :=
  { symtab := none,
    dynsym := some (.ok [⟨"printf", 18, 0, 0, 0, 0⟩, ⟨"environ", 17, 0, 0, 0, 0⟩,
      ⟨"", 0, 0, 0, 0, 0⟩, ⟨"dlopen", 18, 0, 0, 0, 0⟩]),
    needed := some (.ok ["libc.so.6"]),
    versym := some (.ok [2, 1, 0, 7]),
    verneed := some (.ok [⟨"libc.so.6", [("GLIBC_2.2.5", 2)]⟩]),
    noSymtab := .error ErrNoSymbols, noDynsym := .error ErrNoSymbols }

/-- Tables of a file that has only a dynamic symbol table, read by a
library that reports a missing symbol section as `ErrNoSymbols`. -/
def exTablesBare : Tables :=
  { symtab := none, dynsym := some (.ok [⟨"printf", 18, 0, 0, 0, 0⟩]), needed := none,
    versym := none, verneed := none,
    noSymtab := .error ErrNoSymbols, noDynsym := .error ErrNoSymbols }

/-! ## Theorems -/

/-! ### The monad of runs -/

theorem Run.pure_eq {α : Type} (a : α) : (pure a : Run α) = Run.done [] a := rfl

theorem Run.bind_eq {α β : Type} (m : Run α) (f : α → Run β) : m >>= f = Run.bind m f := rfl

theorem Run.bind_pure_unit (m : Run Unit) : (m >>= fun _ => (pure () : Run Unit)) = m := by
  cases m <;> simp [Run.bind_eq, Run.bind, Run.pure_eq]

theorem Run.exit_bind {α β : Type} (o : List Event) (s : Nat) (f : α → Run β) :
    Run.exit o s >>= f = Run.exit o s := rfl

theorem Run.done_bind_eq {α β : Type} (o : List Event) (a : α) (f : α → Run β) :
    Run.done o a >>= f = Run.prepend o (f a) := by
  cases h : f a <;> simp [Run.bind_eq, Run.bind, Run.prepend, h]

theorem Run.pure_bind_eq {α β : Type} (a : α) (f : α → Run β) :
    (pure a : Run α) >>= f = f a := by
  cases h : f a <;> simp [Run.bind_eq, Run.bind, Run.pure_eq, h]

theorem ite_bind_join {β : Type} (c : Prop) [Decidable c] (m : Run Unit)
    (k : Unit → Run β) :
    (if c then m >>= k else (pure PUnit.unit : Run Unit) >>= k)
      = (if c then m else pure PUnit.unit) >>= k := by
  split <;> rfl

/-- A loop whose body prints and goes on prints the events of every element. -/
theorem forIn_emit {α : Type} (ev : α → List Event)
    (body : α → PUnit → Run (ForInStep PUnit))
    (h : ∀ x r, body x r = Run.done (ev x) (ForInStep.yield PUnit.unit)) (l : List α) :
    forIn l PUnit.unit body = Run.done (l.flatMap ev) PUnit.unit := by
  induction l with
  | nil => rfl
  | cons x xs ih =>
    rw [List.forIn_cons, h]
    simp only [Run.bind_eq, Run.bind, ih]
    simp

/-- The function `main` is the usage exit, a failed open, or the guarded
statements of the seven views in order under the deferred `Close`. -/
theorem main_eq (S : Stringers) (Open : String → Except GoError File) (args : List String) :
    main S Open args =
      if (argLoop args).elfPath = "" then
        Run.exit showUsage.out 1
      else
        match Open (argLoop args).elfPath with
        | .error err => Run.exit [.open (argLoop args).elfPath, .log err] 1
        | .ok f =>
          Run.prepend [.open (argLoop args).elfPath]
            (deferClose (runViews S (argLoop args) f View.all)) := by
  unfold main
  by_cases hp : (argLoop args).elfPath = ""
  · simp only [hp, if_true]
    rfl
  · simp only [hp, if_false]
    cases hO : Open (argLoop args).elfPath with
    | error err => 
      simp only [elfOpen, hO]
      rfl
    | ok f =>
      obtain ⟨_, _, _, _, _, _, _, _, _, _, _, sy, ds, il, im⟩ := f
      cases sy <;> cases ds <;> cases il <;> cases im <;>
        simp only [elfOpen, hO, Run.pure_bind_eq, Run.done_bind_eq, ite_bind_join, runViews,
          View.all, requested, viewRun, Run.bind_pure_unit]

/-! ### What the functions of the program print -/

theorem showUsage_eq :
    showUsage = Run.done
      [.printf "Usage: readelf [-hSlsdaIi] elfPath\n" [],
       .printf "  -h: ELF File Header\n" [],
       .printf "  -S: ELF Sections\n" [],
       .printf "  -l: ELF Programs\n" [],
       .printf "  -s: ELF Symbols\n" [],
       .printf "  -d: ELF DynamicSymbols\n" [],
       .printf "  -I: ELF ImportedLibraries\n" [],
       .printf "  -i: ELF ImportedSymbols\n" [],
       .printf "  -a: All above\n" []] () := rfl

theorem showHeader_eq (S : Stringers) (file : File) :
    showHeader S file = Run.done
      [.printf "ELF File Header:\n" [],
       .printf "  Class:      %s\n" [.str (S.Class file.Class)],
       .printf "  Version:    %s\n" [.str (S.Version file.Version)],
       .printf "  Data:       %s\n" [.str (S.Data file.Data)],
       .printf "  OSABI:      %s\n" [.str (S.OSABI file.OSABI)],
       .printf "  ABIVersion: %d\n" [.int file.ABIVersion],
       .printf "  ByteOrder:  %s\n" [.str (S.ByteOrder file.ByteOrder)],
       .printf "  Type:       %s\n" [.str (S.Type_ file.Type_)],
       .printf "  Machine:    %s\n" [.str (S.Machine file.Machine)],
       .printf "  Entry:      %d\n" [.int file.Entry]] () := rfl

theorem flatMap_one {α β : Type} (f : α → β) (l : List α) :
    (l.flatMap fun x => [f x]) = l.map f := by
  induction l with
  | nil => rfl
  | cons x xs ih => simp [List.flatMap_cons, ih]

/-- A function that prints a title, a heading and one row per element of
its table prints exactly those lines. -/
theorem table_eq {α : Type} (title heading : Event) (row : Nat × α → Event) (l : List α)
    (body : Nat × α → PUnit → Run (ForInStep PUnit))
    (h : ∀ x r, body x r = Run.done [row x] (ForInStep.yield PUnit.unit)) :
    (do
      (Run.done [title] () : Run Unit)
      (Run.done [heading] () : Run Unit)
      forIn l.enum PUnit.unit body
      pure PUnit.unit : Run PUnit)
      = Run.done (title :: heading :: l.enum.map row) PUnit.unit := by
  rw [forIn_emit (fun x => [row x]) body h]
  simp [Run.bind_eq, Run.bind, Run.pure_eq, flatMap_one]

theorem showImportedLibraries_eq (libraries : List String) :
    showImportedLibraries libraries = Run.done
      (.printf "ELF ImportedLibraries:\n" [] ::
       .printf "  [%2s] %s\n" [.str "Nr", .str "Name"] ::
       libraries.enum.map (fun p => .printf "  [%2d] %-30s\n" [.int p.1, .str p.2])) () := by
  unfold showImportedLibraries Printf
  exact table_eq _ _ _ _ _ (fun _ _ => rfl)

theorem showImportedSymbols_eq (symbols : List ImportedSymbol) :
    showImportedSymbols symbols = Run.done
      (.printf "ELF ImportedSymbols:\n" [] ::
       .printf "  [%2s] %-30s %-10s %s\n"
         [.str "Nr", .str "Name", .str "Version", .str "Library"] ::
       symbols.enum.map (fun p => .printf "  [%2d] %-30s %-10s %s\n"
         [.int p.1, .str p.2.Name, .str p.2.Version, .str p.2.Library])) () := by
  unfold showImportedSymbols Printf
  exact table_eq _ _ _ _ _ (fun _ _ => rfl)

theorem showSymbols_eq (S : Stringers) (symbols : List Symbol) (title : String) :
    showSymbols S symbols title = Run.done
      (.printf "ELF %s:\n" [.str title] ::
       .printf "  [%2s] %-30s %-10s %-8s %-8s %3s %3s\n"
         [.str "Nr", .str "Name", .str "Section", .str "Value", .str "Size",
          .str "Inf", .str "Oth"] ::
       symbols.enum.map (fun p => .printf "  [%2d] %-30s %-10s %08x %08x %3d %3d\n"
         [.int p.1, .str p.2.Name,
          .str (Replace (S.SectionIndex p.2.Section) "SHN_" ""),
          .int p.2.Value, .int p.2.Size, .int p.2.Info, .int p.2.Other])) () := by
  unfold showSymbols Printf
  exact table_eq _ _ _ _ _ (fun _ _ => rfl)

theorem showSections_eq (S : Stringers) (sections : List Section) :
    showSections S sections = Run.done
      (.printf "ELF Sections:\n" [] ::
       .printf "  [%2s] %-25s %-15s %-8s %-8s %-8s %2s %3s %3s %3s %4s\n"
         [.str "Nr", .str "Name", .str "Type", .str "Addr", .str "Off", .str "Size",
          .str "ES", .str "Flg", .str "Lk", .str "Inf", .str "Al"] ::
       sections.enum.map (fun p =>
         .printf "  [%2d] %-25s %-15s %08x %08x %08x %02x %3s %3d %3d %4x\n"
           [.int p.1, .str p.2.Name,
            .str (Replace (S.SectionType p.2.Type_) "SHT_" ""),
            .int p.2.Addr, .int p.2.Offset, .int p.2.Size, .int p.2.Entsize,
            .str (Replace (S.SectionFlag p.2.Flags) "SHF_" ""),
            .int p.2.Link, .int p.2.Info, .int p.2.Addralign])) () := by
  unfold showSections Printf
  exact table_eq _ _ _ _ _ (fun _ _ => rfl)

theorem showProgram_eq (S : Stringers) (progs : List Prog) :
    showProgram S progs = Run.done
      (.printf "ELF Programs:\n" [] ::
       .printf "  [%2s] %-20s %-8s %-8s %-8s %-8s %-8s %3s %5s\n"
         [.str "Nr", .str "Type", .str "Offset", .str "VirtAddr", .str "PhysAddr",
          .str "FileSiz", .str "MemSiz", .str "Flg", .str "Align"] ::
       progs.enum.map (fun p => .printf "  [%2d] %-20s %08x %08x %08x %08x %08x %3s %5d\n"
         [.int p.1, .str (Replace (S.ProgType p.2.Type_) "PT_" ""),
          .int p.2.Off, .int p.2.Vaddr, .int p.2.Paddr, .int p.2.Filesz, .int p.2.Memsz,
          .str (Replace (S.ProgFlag p.2.Flags) "PF_" ""),
          .int p.2.Align])) () := by
  unfold showProgram Printf
  exact table_eq _ _ _ _ _ (fun _ _ => rfl)

/-- A view whose lookup succeeds falls through after printing its block. -/
theorem viewRun_ok (S : Stringers) (f : File) (v : View) (h : lookupError f v = none) :
    viewRun S f v = Run.done (block S f v) () := by
  cases v <;> simp only [viewRun, block, lookupError] at h ⊢
  · rw [showHeader_eq]; rfl
  · rw [showSections_eq]; rfl
  · rw [showProgram_eq]; rfl
  · cases hs : f.Symbols <;> simp [hs] at h ⊢
    rw [showSymbols_eq]; rfl
  · cases hs : f.DynamicSymbols <;> simp [hs] at h ⊢
    rw [showSymbols_eq]; rfl
  · cases hs : f.ImportedLibraries <;> simp [hs] at h ⊢
    rw [showImportedLibraries_eq]; rfl
  · cases hs : f.ImportedSymbols <;> simp [hs] at h ⊢
    rw [showImportedSymbols_eq]; rfl

/-- A view whose lookup fails logs the error and exits with status 1. -/
theorem viewRun_error (S : Stringers) (f : File) (v : View) (e : GoError)
    (h : lookupError f v = some e) :
    viewRun S f v = Run.exit [.log e] 1 := by
  cases v <;> simp only [viewRun, lookupError] at h ⊢
  · cases h
  · cases h
  · cases h
  · cases hs : f.Symbols <;> simp [hs] at h ⊢
    subst h; rfl
  · cases hs : f.DynamicSymbols <;> simp [hs] at h ⊢
    subst h; rfl
  · cases hs : f.ImportedLibraries <;> simp [hs] at h ⊢
    subst h; rfl
  · cases hs : f.ImportedSymbols <;> simp [hs] at h ⊢
    subst h; rfl

/-- The first line of a view is in the block of that view and of no other. -/
theorem viewTitle_mem_block (S : Stringers) (f : File) (v w : View)
    (h : lookupError f w = none) :
    viewTitle v ∈ block S f w ↔ v = w := by
  cases w <;> simp only [block, viewRun, lookupError] at h ⊢
  · rw [showHeader_eq]; cases v <;> simp [viewTitle, Run.out]
  · rw [showSections_eq]; cases v <;> simp [viewTitle, Run.out]
  · rw [showProgram_eq]; cases v <;> simp [viewTitle, Run.out]
  · cases hs : f.Symbols <;> simp [hs] at h ⊢
    rw [showSymbols_eq]; cases v <;> simp [viewTitle, Run.out]
  · cases hs : f.DynamicSymbols <;> simp [hs] at h ⊢
    rw [showSymbols_eq]; cases v <;> simp [viewTitle, Run.out]
  · cases hs : f.ImportedLibraries <;> simp [hs] at h ⊢
    rw [showImportedLibraries_eq]; cases v <;> simp [viewTitle, Run.out]
  · cases hs : f.ImportedSymbols <;> simp [hs] at h ⊢
    rw [showImportedSymbols_eq]; cases v <;> simp [viewTitle, Run.out]

/-! ### The guarded statements of the views -/

theorem blocks_cons_false (S : Stringers) (g : Globals) (f : File) (w : View)
    (ws : List View) (hw : requested g w = false) :
    blocks S g f (w :: ws) = blocks S g f ws := by
  simp [blocks, List.filter_cons, hw]

theorem blocks_cons_true (S : Stringers) (g : Globals) (f : File) (w : View)
    (ws : List View) (hw : requested g w = true) :
    blocks S g f (w :: ws) = block S f w ++ blocks S g f ws := by
  simp [blocks, List.filter_cons, hw]

theorem runViews_cons_false (S : Stringers) (g : Globals) (f : File) (w : View)
    (ws : List View) (hw : requested g w = false) :
    runViews S g f (w :: ws) = runViews S g f ws := by
  simp only [runViews, hw, Run.pure_bind_eq]
  rfl

theorem runViews_cons_true (S : Stringers) (g : Globals) (f : File) (w : View)
    (ws : List View) (hw : requested g w = true) (hl : lookupError f w = none) :
    runViews S g f (w :: ws) = Run.prepend (block S f w) (runViews S g f ws) := by
  simp only [runViews, hw, if_true, viewRun_ok S f w hl, Run.done_bind_eq]

theorem runViews_ok (S : Stringers) (g : Globals) (f : File) (vs : List View)
    (h : ∀ v ∈ vs, requested g v = true → lookupError f v = none) :
    runViews S g f vs = Run.done (blocks S g f vs) () := by
  induction vs with
  | nil => rfl
  | cons v vs ih =>
    have ih2 := ih (fun w hw => h w (List.mem_cons_of_mem _ hw))
    cases hr : requested g v with
    | false => rw [runViews_cons_false S g f v vs hr, blocks_cons_false S g f v vs hr, ih2]
    | true =>
      rw [runViews_cons_true S g f v vs hr (h v (List.mem_cons_self _ _) hr),
        blocks_cons_true S g f v vs hr, ih2]
      rfl

theorem runViews_error (S : Stringers) (g : Globals) (f : File) (pre post : List View)
    (v : View) (e : GoError)
    (h : ∀ w ∈ pre, requested g w = true → lookupError f w = none)
    (hr : requested g v = true) (he : lookupError f v = some e) :
    runViews S g f (pre ++ v :: post) = Run.exit (blocks S g f pre ++ [.log e]) 1 := by
  induction pre with
  | nil =>
    simp only [List.nil_append, runViews, hr, if_true, viewRun_error S f v e he,
      Run.exit_bind, blocks]
    simp
  | cons w ws ih =>
    have ih2 := ih (fun u hu => h u (List.mem_cons_of_mem _ hu))
    rw [List.cons_append]
    cases hw : requested g w with
    | false => rw [runViews_cons_false S g f w _ hw, blocks_cons_false S g f w ws hw, ih2]
    | true =>
      rw [runViews_cons_true S g f w _ hw (h w (List.mem_cons_self _ _) hw),
        blocks_cons_true S g f w ws hw, ih2]
      simp [Run.prepend]

theorem all_split (v : View) : View.all = viewsBefore v ++ v :: viewsAfter v := by
  cases v <;> rfl

theorem mem_all (v : View) : v ∈ View.all := by
  cases v <;> simp [View.all]

theorem mem_viewsBefore (v w : View) : w ∈ viewsBefore v ↔ w.order < v.order := by
  simp [viewsBefore, mem_all]

/-- A run that reaches the views with every requested lookup succeeding
prints the blocks of the requested views in order, closes the file and
returns. -/
theorem main_ok (S : Stringers) (Open : String → Except GoError File) (args : List String)
    (f : File) (hp : (argLoop args).elfPath ≠ "")
    (hO : Open (argLoop args).elfPath = .ok f)
    (h : ∀ v, requested (argLoop args) v = true → lookupError f v = none) :
    main S Open args = Run.done
      ([.open (argLoop args).elfPath] ++ blocks S (argLoop args) f View.all ++ [.close])
      () := by
  rw [main_eq, if_neg hp, hO]
  simp only [runViews_ok S _ f View.all (fun v _ => h v), deferClose, Run.prepend,
    List.append_assoc]

/-- A run in which the lookup of a requested view fails, every requested
lookup before it succeeding, prints the blocks of the requested views
before it, logs the error and exits with status 1. -/
theorem main_error (S : Stringers) (Open : String → Except GoError File)
    (args : List String) (f : File) (v : View) (e : GoError)
    (hp : (argLoop args).elfPath ≠ "")
    (hO : Open (argLoop args).elfPath = .ok f)
    (hr : requested (argLoop args) v = true) (he : lookupError f v = some e)
    (h : ∀ w, w.order < v.order → requested (argLoop args) w = true →
      lookupError f w = none) :
    main S Open args = Run.exit
      ([.open (argLoop args).elfPath] ++ blocks S (argLoop args) f (viewsBefore v)
        ++ [.log e]) 1 := by
  rw [main_eq, if_neg hp, hO]
  simp only []
  rw [all_split v, runViews_error S _ f (viewsBefore v) (viewsAfter v) v e
    (fun w hw => h w ((mem_viewsBefore v w).1 hw)) hr he]
  simp only [deferClose, Run.prepend, List.append_assoc]

/-! ### The argument loop -/

theorem hasPrefix_dash (s : String) :
    HasPrefix s "-" = true ↔ s.data.head? = some '-' := by
  unfold HasPrefix
  show List.isPrefixOf ['-'] s.data = true ↔ _
  cases s.data with
  | nil => simp only [List.isPrefixOf, List.head?]; simp
  | cons c cs =>
    simp only [List.isPrefixOf, List.head?, Bool.and_true, beq_iff_eq, Option.some.injEq]
    exact eq_comm

theorem containsChars_single (c : Char) (l : List Char) :
    containsChars l [c] = true ↔ c ∈ l := by
  induction l with
  | nil => simp only [containsChars, List.isEmpty]; simp
  | cons x xs ih =>
    simp only [containsChars, List.isPrefixOf, Bool.and_true, Bool.or_eq_true, beq_iff_eq, ih,
      List.mem_cons]

theorem contains_single (s : String) (c : Char) :
    Contains s ⟨[c]⟩ = true ↔ c ∈ s.data :=
  containsChars_single c s.data

/-- A flag that every step sets exactly on a dash argument with its letter
is set by the loop exactly when such an argument is met. -/
theorem argLoopFrom_flag (get : Globals → Bool) (c : Char)
    (hstep : ∀ g i arg, get (argStep g i arg)
      = (get g || (decide (i ≠ 0) && HasPrefix arg "-" && Contains arg ⟨[c]⟩)))
    (args : List String) :
    ∀ (i : Nat) (g : Globals), i ≠ 0 →
      (get (argLoopFrom i g args) = true ↔
        get g = true ∨ ∃ arg ∈ args, arg.data.head? = some '-' ∧ c ∈ arg.data) := by
  induction args with
  | nil => intro i g _; simp [argLoopFrom]
  | cons a rest ih =>
    intro i g hi
    rw [argLoopFrom, ih (i + 1) (argStep g i a) (Nat.succ_ne_zero i), hstep]
    simp only [hi, ne_eq, not_false_eq_true, decide_True, Bool.true_and, Bool.or_eq_true,
      Bool.and_eq_true, hasPrefix_dash, contains_single, List.mem_cons, exists_eq_or_imp]
    tauto

theorem argStep_zero (g : Globals) (arg : String) : argStep g 0 arg = g := by
  simp [argStep]

theorem argLoop_flag (get : Globals → Bool) (c : Char)
    (hstep : ∀ g i arg, get (argStep g i arg)
      = (get g || (decide (i ≠ 0) && HasPrefix arg "-" && Contains arg ⟨[c]⟩)))
    (hz : get Globals.zero = false) (args : List String) :
    get (argLoop args) = true ↔ FlagGiven args c := by
  unfold argLoop FlagGiven
  cases args with
  | nil => simp [argLoopFrom, hz]
  | cons a rest =>
    rw [argLoopFrom, argStep_zero, argLoopFrom_flag get c hstep rest 1 _ Nat.one_ne_zero]
    simp [hz]

theorem argStep_isShowAll (g : Globals) (i : Nat) (arg : String) :
    (argStep g i arg).isShowAll
      = (g.isShowAll || (decide (i ≠ 0) && HasPrefix arg "-" && Contains arg "a")) := by
  unfold argStep
  by_cases hi : i = 0
  · simp [hi]
  · cases hp : HasPrefix arg "-"
    · simp [hi]
    · simp only [hi, if_false, if_true]
      simp only [apply_ite Globals.isShowAll]
      cases Contains arg "a" <;> simp [hi]

theorem argStep_isShowHeader (g : Globals) (i : Nat) (arg : String) :
    (argStep g i arg).isShowHeader
      = (g.isShowHeader || (decide (i ≠ 0) && HasPrefix arg "-" && Contains arg "h")) := by
  unfold argStep
  by_cases hi : i = 0
  · simp [hi]
  · cases hp : HasPrefix arg "-"
    · simp [hi]
    · simp only [hi, if_false, if_true]
      simp only [apply_ite Globals.isShowHeader]
      cases Contains arg "h" <;> simp [hi]

theorem argStep_isShowSection (g : Globals) (i : Nat) (arg : String) :
    (argStep g i arg).isShowSection
      = (g.isShowSection || (decide (i ≠ 0) && HasPrefix arg "-" && Contains arg "S")) := by
  unfold argStep
  by_cases hi : i = 0
  · simp [hi]
  · cases hp : HasPrefix arg "-"
    · simp [hi]
    · simp only [hi, if_false, if_true]
      simp only [apply_ite Globals.isShowSection]
      cases Contains arg "S" <;> simp [hi]

theorem argStep_isShowProgram (g : Globals) (i : Nat) (arg : String) :
    (argStep g i arg).isShowProgram
      = (g.isShowProgram || (decide (i ≠ 0) && HasPrefix arg "-" && Contains arg "l")) := by
  unfold argStep
  by_cases hi : i = 0
  · simp [hi]
  · cases hp : HasPrefix arg "-"
    · simp [hi]
    · simp only [hi, if_false, if_true]
      simp only [apply_ite Globals.isShowProgram]
      cases Contains arg "l" <;> simp [hi]

theorem argStep_isShowSymbols (g : Globals) (i : Nat) (arg : String) :
    (argStep g i arg).isShowSymbols
      = (g.isShowSymbols || (decide (i ≠ 0) && HasPrefix arg "-" && Contains arg "s")) := by
  unfold argStep
  by_cases hi : i = 0
  · simp [hi]
  · cases hp : HasPrefix arg "-"
    · simp [hi]
    · simp only [hi, if_false, if_true]
      simp only [apply_ite Globals.isShowSymbols]
      cases Contains arg "s" <;> simp [hi]

theorem argStep_isShowDynamicSymbols (g : Globals) (i : Nat) (arg : String) :
    (argStep g i arg).isShowDynamicSymbols
      = (g.isShowDynamicSymbols
          || (decide (i ≠ 0) && HasPrefix arg "-" && Contains arg "d")) := by
  unfold argStep
  by_cases hi : i = 0
  · simp [hi]
  · cases hp : HasPrefix arg "-"
    · simp [hi]
    · simp only [hi, if_false, if_true]
      simp only [apply_ite Globals.isShowDynamicSymbols]
      cases Contains arg "d" <;> simp [hi]

theorem argStep_isShowImportedLibraries (g : Globals) (i : Nat) (arg : String) :
    (argStep g i arg).isShowImportedLibraries
      = (g.isShowImportedLibraries
          || (decide (i ≠ 0) && HasPrefix arg "-" && Contains arg "I")) := by
  unfold argStep
  by_cases hi : i = 0
  · simp [hi]
  · cases hp : HasPrefix arg "-"
    · simp [hi]
    · simp only [hi, if_false, if_true]
      simp only [apply_ite Globals.isShowImportedLibraries]
      cases Contains arg "I" <;> simp [hi]

theorem argStep_isShowImportedSymbols (g : Globals) (i : Nat) (arg : String) :
    (argStep g i arg).isShowImportedSymbols
      = (g.isShowImportedSymbols
          || (decide (i ≠ 0) && HasPrefix arg "-" && Contains arg "i")) := by
  unfold argStep
  by_cases hi : i = 0
  · simp [hi]
  · cases hp : HasPrefix arg "-"
    · simp [hi]
    · simp only [hi, if_false, if_true]
      simp only [apply_ite Globals.isShowImportedSymbols]
      cases Contains arg "i" <;> simp [hi]

/-- The flag of `-a` after the loop. -/
theorem isShowAll_iff (args : List String) :
    (argLoop args).isShowAll = true ↔ FlagGiven args 'a' :=
  argLoop_flag Globals.isShowAll 'a' argStep_isShowAll rfl args

/-- The flag of a view after the loop. -/
theorem ownFlag_iff (args : List String) (v : View) :
    ownFlag (argLoop args) v = true ↔ FlagGiven args (flagLetter v) := by
  cases v
  · exact argLoop_flag Globals.isShowHeader 'h' argStep_isShowHeader rfl args
  · exact argLoop_flag Globals.isShowSection 'S' argStep_isShowSection rfl args
  · exact argLoop_flag Globals.isShowProgram 'l' argStep_isShowProgram rfl args
  · exact argLoop_flag Globals.isShowSymbols 's' argStep_isShowSymbols rfl args
  · exact argLoop_flag Globals.isShowDynamicSymbols 'd' argStep_isShowDynamicSymbols rfl args
  · exact argLoop_flag Globals.isShowImportedLibraries 'I' argStep_isShowImportedLibraries
      rfl args
  · exact argLoop_flag Globals.isShowImportedSymbols 'i' argStep_isShowImportedSymbols
      rfl args

theorem requested_iff (g : Globals) (v : View) :
    requested g v = true ↔ ownFlag g v = true ∨ g.isShowAll = true := by
  cases v <;> simp [requested, ownFlag]

theorem argStep_elfPath (g : Globals) (i : Nat) (arg : String)
    (h : HasPrefix arg "-" = true) : (argStep g i arg).elfPath = g.elfPath := by
  unfold argStep
  by_cases hi : i = 0
  · simp [hi]
  · simp only [hi, h, if_false, if_true]
    simp only [apply_ite Globals.elfPath, ite_self]

theorem argLoopFrom_elfPath (args : List String)
    (h : ∀ arg ∈ args, arg.data.head? = some '-') :
    ∀ (i : Nat) (g : Globals), (argLoopFrom i g args).elfPath = g.elfPath := by
  induction args with
  | nil => intro i g; rfl
  | cons a rest ih =>
    intro i g
    rw [argLoopFrom, ih (fun x hx => h x (List.mem_cons_of_mem _ hx)),
      argStep_elfPath g i a ((hasPrefix_dash a).2 (h a (List.mem_cons_self _ _)))]

/-- With only dash arguments after the program name no path is set. -/
theorem argLoop_elfPath (args : List String)
    (h : ∀ arg ∈ args.tail, arg.data.head? = some '-') : (argLoop args).elfPath = "" := by
  unfold argLoop
  cases args with
  | nil => rfl
  | cons a rest =>
    rw [argLoopFrom, argStep_zero, argLoopFrom_elfPath rest h]
    rfl

theorem argLoopFrom_append (xs ys : List String) :
    ∀ (i : Nat) (g : Globals),
      argLoopFrom i g (xs ++ ys) = argLoopFrom (i + xs.length) (argLoopFrom i g xs) ys := by
  induction xs with
  | nil => intro i g; rfl
  | cons x rest ih =>
    intro i g
    have hi : i + (x :: rest).length = i + 1 + rest.length := by simp; omega
    rw [List.cons_append, argLoopFrom, argLoopFrom, ih, hi]

theorem argStep_path (g : Globals) (i : Nat) (arg : String) (hi : i ≠ 0)
    (h : arg.data.head? ≠ some '-') : (argStep g i arg).elfPath = arg := by
  have hn : HasPrefix arg "-" = false := by
    cases hb : HasPrefix arg "-" with
    | false => rfl
    | true => exact absurd ((hasPrefix_dash arg).1 hb) h
  simp [argStep, hi, hn]

/-- The loop leaves in `elfPath` the last argument after the program name
that does not start with `-`. -/
theorem argLoop_elfPath_last (name path : String) (pre post : List String)
    (hpath : path.data.head? ≠ some '-')
    (hpost : ∀ arg ∈ post, arg.data.head? = some '-') :
    (argLoop (name :: (pre ++ path :: post))).elfPath = path := by
  unfold argLoop
  rw [argLoopFrom, argStep_zero, argLoopFrom_append, argLoopFrom,
    argLoopFrom_elfPath post hpost, argStep_path _ _ _ (by omega) hpath]

/-! ### Which views a run prints -/

theorem printed_blocks (S : Stringers) (g : Globals) (f : File) (vs : List View)
    (h : ∀ w ∈ vs, requested g w = true → lookupError f w = none) (v : View) :
    viewTitle v ∈ blocks S g f vs ↔ v ∈ vs ∧ requested g v = true := by
  simp only [blocks, List.mem_flatMap, List.mem_filter]
  constructor
  · rintro ⟨w, ⟨hw, hr⟩, hm⟩
    have hvw := (viewTitle_mem_block S f v w (h w hw hr)).1 hm
    subst hvw
    exact ⟨hw, hr⟩
  · rintro ⟨hv, hr⟩
    exact ⟨v, ⟨hv, hr⟩, (viewTitle_mem_block S f v v (h v hv hr)).2 rfl⟩

theorem printed_usage (v : View) : ¬ Printed v showUsage.out := by
  rw [showUsage_eq]
  cases v <;> simp [Printed, viewTitle, Run.out]

theorem printed_wrap (v : View) (name : String) (mid tail : List Event)
    (ht : viewTitle v ∉ tail) :
    Printed v ([.open name] ++ mid ++ tail) ↔ viewTitle v ∈ mid := by
  have h1 : viewTitle v ≠ Event.open name := by cases v <;> simp [viewTitle]
  simp [Printed, h1, ht]

theorem title_not_close (v : View) : viewTitle v ∉ [Event.close] := by
  cases v <;> simp [viewTitle]

theorem title_not_log (v : View) (e : GoError) : viewTitle v ∉ [Event.log e] := by
  cases v <;> simp [viewTitle]

theorem printed_main_ok (S : Stringers) (Open : String → Except GoError File)
    (args : List String) (f : File) (hp : (argLoop args).elfPath ≠ "")
    (hO : Open (argLoop args).elfPath = .ok f)
    (h : ∀ v, requested (argLoop args) v = true → lookupError f v = none) (v : View) :
    Printed v (main S Open args).out ↔ requested (argLoop args) v = true := by
  rw [main_ok S Open args f hp hO h]
  simp only [Run.out]
  rw [printed_wrap v _ _ _ (title_not_close v),
    printed_blocks S _ f View.all (fun w _ => h w) v]
  simp [mem_all]

theorem printed_main_error (S : Stringers) (Open : String → Except GoError File)
    (args : List String) (f : File) (u : View) (e : GoError)
    (hp : (argLoop args).elfPath ≠ "")
    (hO : Open (argLoop args).elfPath = .ok f)
    (hr : requested (argLoop args) u = true) (he : lookupError f u = some e)
    (h : ∀ w, w.order < u.order → requested (argLoop args) w = true →
      lookupError f w = none) (v : View) :
    Printed v (main S Open args).out ↔
      requested (argLoop args) v = true ∧ v.order < u.order := by
  rw [main_error S Open args f u e hp hO hr he h]
  simp only [Run.out]
  rw [printed_wrap v _ _ _ (title_not_log v e),
    printed_blocks S _ f (viewsBefore u) (fun w hw => h w ((mem_viewsBefore u w).1 hw)) v,
    mem_viewsBefore]
  tauto

/-- When some requested lookup fails there is a first one in the fixed
order: the one the run reaches. -/
theorem first_error (g : Globals) (f : File)
    (h : ∃ w, requested g w = true ∧ lookupError f w ≠ none) :
    ∃ v e, requested g v = true ∧ lookupError f v = some e ∧
      ∀ w, w.order < v.order → requested g w = true → lookupError f w = none := by
  classical
  have hP : ∃ n, ∃ w, w.order = n ∧ requested g w = true ∧ lookupError f w ≠ none := by
    obtain ⟨w, hw⟩ := h
    exact ⟨w.order, w, rfl, hw⟩
  obtain ⟨v, hv, hr, hl⟩ := Nat.find_spec hP
  obtain ⟨e, he⟩ := Option.ne_none_iff_exists'.1 hl
  refine ⟨v, e, hr, he, ?_⟩
  intro w hw hrw
  by_contra hne
  exact Nat.find_min hP (hv ▸ hw) ⟨w, rfl, hrw, hne⟩

/-- A view is printed exactly when it is requested and the run reaches the
end of its statement: a path is given, the file opens, and the lookups of
the requested views up to it succeed. -/
theorem printed_iff (S : Stringers) (Open : String → Except GoError File)
    (args : List String) (v : View) :
    Printed v (main S Open args).out ↔
      (requested (argLoop args) v = true ∧ (argLoop args).elfPath ≠ "" ∧
        ∃ f, Open (argLoop args).elfPath = .ok f ∧
          ∀ w, w.order ≤ v.order → requested (argLoop args) w = true →
            lookupError f w = none) := by
  by_cases hp : (argLoop args).elfPath = ""
  · have hm : main S Open args = Run.exit showUsage.out 1 := by rw [main_eq, if_pos hp]
    rw [hm]
    constructor
    · intro h; exact absurd h (printed_usage v)
    · rintro ⟨_, h, _⟩; exact absurd hp h
  · cases hO : Open (argLoop args).elfPath with
    | error err =>
      have hm : main S Open args = Run.exit [.open (argLoop args).elfPath, .log err] 1 := by
        rw [main_eq, if_neg hp, hO]
      rw [hm]
      constructor
      · intro h
        have h1 : viewTitle v ≠ Event.open (argLoop args).elfPath := by
          cases v <;> simp [viewTitle]
        have h2 : viewTitle v ≠ Event.log err := by cases v <;> simp [viewTitle]
        simp [Printed, Run.out, h1, h2] at h
      · rintro ⟨_, _, f, hf, _⟩; cases hf
    | ok f =>
      by_cases hall : ∀ w, requested (argLoop args) w = true → lookupError f w = none
      · rw [printed_main_ok S Open args f hp hO hall v]
        constructor
        · intro hr; exact ⟨hr, hp, f, rfl, fun w _ hw => hall w hw⟩
        · rintro ⟨hr, _⟩; exact hr
      · have hex : ∃ w, requested (argLoop args) w = true ∧ lookupError f w ≠ none := by
          by_contra hne
          apply hall
          intro w hw
          by_contra hl
          exact hne ⟨w, hw, hl⟩
        obtain ⟨u, e, hru, heu, hmin⟩ := first_error (argLoop args) f hex
        rw [printed_main_error S Open args f u e hp hO hru heu hmin v]
        constructor
        · rintro ⟨hr, hlt⟩
          exact ⟨hr, hp, f, rfl, fun w hw hrw => hmin w (Nat.lt_of_le_of_lt hw hlt) hrw⟩
        · rintro ⟨hr, _, f2, hf2, hle⟩
          cases hf2
          refine ⟨hr, ?_⟩
          by_contra hge
          have := hle u (Nat.le_of_not_lt hge) hru
          rw [heu] at this
          cases this

/-! ### The claims about the argument loop and the order of the views -/

/-- Claim C1, as amended. After the argument loop of `main` each view flag,
and the flag of `-a`, is true exactly when some argument after the program
name starts with `-` and contains the letter of the flag; the letters are
case-sensitive (`-s` does not select sections, `-i` does not select
imported libraries); and a view is printed exactly when its own flag or the
flag of `-a` is true and the run reaches the end of its statement: a path
is given, the file opens, and no lookup of a requested view up to and
including it fails. -/
theorem flags_and_printed_views (S : Stringers) (Open : String → Except GoError File)
    (args : List String) :
    ((argLoop args).isShowHeader = true ↔ FlagGiven args 'h') ∧
    ((argLoop args).isShowSection = true ↔ FlagGiven args 'S') ∧
    ((argLoop args).isShowProgram = true ↔ FlagGiven args 'l') ∧
    ((argLoop args).isShowSymbols = true ↔ FlagGiven args 's') ∧
    ((argLoop args).isShowDynamicSymbols = true ↔ FlagGiven args 'd') ∧
    ((argLoop args).isShowImportedLibraries = true ↔ FlagGiven args 'I') ∧
    ((argLoop args).isShowImportedSymbols = true ↔ FlagGiven args 'i') ∧
    ((argLoop args).isShowAll = true ↔ FlagGiven args 'a') ∧
    (∀ name : String, (argLoop [name, "-s"]).isShowSymbols = true ∧
      (argLoop [name, "-s"]).isShowSection = false) ∧
    (∀ name : String, (argLoop [name, "-i"]).isShowImportedSymbols = true ∧
      (argLoop [name, "-i"]).isShowImportedLibraries = false) ∧
    ∀ v, Printed v (main S Open args).out ↔
      ((ownFlag (argLoop args) v = true ∨ (argLoop args).isShowAll = true) ∧
        (argLoop args).elfPath ≠ "" ∧
        ∃ f, Open (argLoop args).elfPath = .ok f ∧
          ∀ w, w.order ≤ v.order → requested (argLoop args) w = true →
            lookupError f w = none) := by
  refine ⟨ownFlag_iff args .header, ownFlag_iff args .sections, ownFlag_iff args .programs,
    ownFlag_iff args .symbols, ownFlag_iff args .dynamicSymbols,
    ownFlag_iff args .importedLibraries, ownFlag_iff args .importedSymbols,
    isShowAll_iff args, ?_, ?_, ?_⟩
  · intro name
    constructor
    · exact (ownFlag_iff [name, "-s"] .symbols).2 ⟨"-s", by simp, by decide, by decide⟩
    · cases h : (argLoop [name, "-s"]).isShowSection with
      | false => rfl
      | true =>
        obtain ⟨arg, hm, _, hc⟩ := (ownFlag_iff [name, "-s"] .sections).1 h
        simp only [List.tail_cons, List.mem_singleton] at hm
        subst hm
        exact absurd hc (by decide)
  · intro name
    constructor
    · exact (ownFlag_iff [name, "-i"] .importedSymbols).2 ⟨"-i", by simp, by decide, by decide⟩
    · cases h : (argLoop [name, "-i"]).isShowImportedLibraries with
      | false => rfl
      | true =>
        obtain ⟨arg, hm, _, hc⟩ := (ownFlag_iff [name, "-i"] .importedLibraries).1 h
        simp only [List.tail_cons, List.mem_singleton] at hm
        subst hm
        exact absurd hc (by decide)
  · intro v
    rw [printed_iff, requested_iff]

/-- Claim C1 as stated fails: with the arguments `readelf -h` the header
flag is true after the loop and the header is not printed, although every
file would open. -/
theorem header_flag_without_view :
    (argLoop ["readelf", "-h"]).isShowHeader = true ∧
      ¬ Printed .header (main exStringers (fun _ => .ok exFile) ["readelf", "-h"]).out := by
  decide

/-- Claim C2. For every argument list that names a path (after the program
name, the last argument that does not start with `-` is a non-empty
`path`) and has a dash argument containing `a`, when the file at that path
opens and the four lookups succeed, the run prints the seven views in the
order header, sections, programs, symbols, dynamic symbols, imported
libraries, imported symbols, closes the file and returns, whatever the
other flags are. -/
theorem all_flag_prints_seven_views (S : Stringers) (Open : String → Except GoError File)
    (name path : String) (pre post : List String) (f : File)
    (symbols dynamicSymbols : List Symbol)
    (libraries : List String) (importedSymbols : List ImportedSymbol)
    (hne : path ≠ "") (hpath : path.data.head? ≠ some '-')
    (hpost : ∀ arg ∈ post, arg.data.head? = some '-')
    (ha : FlagGiven (name :: (pre ++ path :: post)) 'a')
    (hO : Open path = .ok f)
    (h1 : f.Symbols = .ok symbols) (h2 : f.DynamicSymbols = .ok dynamicSymbols)
    (h3 : f.ImportedLibraries = .ok libraries)
    (h4 : f.ImportedSymbols = .ok importedSymbols) :
    main S Open (name :: (pre ++ path :: post)) = Run.done
      ([.open path]
        ++ (showHeader S f).out
        ++ (showSections S f.Sections).out
        ++ (showProgram S f.Progs).out
        ++ (showSymbols S symbols "Symbols").out
        ++ (showSymbols S dynamicSymbols "DynamicSymbols").out
        ++ (showImportedLibraries libraries).out
        ++ (showImportedSymbols importedSymbols).out
        ++ [.close]) ()
    ∧ ∀ v, Printed v (main S Open (name :: (pre ++ path :: post))).out := by
  have hpe := argLoop_elfPath_last name path pre post hpath hpost
  have hp : (argLoop (name :: (pre ++ path :: post))).elfPath ≠ "" := by rw [hpe]; exact hne
  have hO2 : Open (argLoop (name :: (pre ++ path :: post))).elfPath = .ok f := by
    rw [hpe]; exact hO
  have hall : (argLoop (name :: (pre ++ path :: post))).isShowAll = true :=
    (isShowAll_iff _).2 ha
  have hreq : ∀ v, requested (argLoop (name :: (pre ++ path :: post))) v = true := fun v =>
    (requested_iff _ v).2 (Or.inr hall)
  have hok : ∀ v, requested (argLoop (name :: (pre ++ path :: post))) v = true →
      lookupError f v = none := by
    intro v _
    cases v <;> simp [lookupError, h1, h2, h3, h4]
  refine ⟨?_, fun v => (printed_main_ok S Open _ f hp hO2 hok v).2 (hreq v)⟩
  rw [main_ok S Open _ f hp hO2 hok, hpe]
  simp [blocks, View.all, List.filter_cons, hreq, block, viewRun, h1, h2, h3, h4]

/-- Claim C2 on the arguments `readelf -h a.out -a`. -/
theorem all_flag_prints_seven_views_witness :
    main exStringers (fun _ => .ok exFile) ("readelf" :: (["-h"] ++ "a.out" :: ["-a"]))
      = Run.done
      ([.open "a.out"]
        ++ (showHeader exStringers exFile).out
        ++ (showSections exStringers exFile.Sections).out
        ++ (showProgram exStringers exFile.Progs).out
        ++ (showSymbols exStringers [] "Symbols").out
        ++ (showSymbols exStringers [⟨"printf", 18, 0, 0, 0, 0⟩] "DynamicSymbols").out
        ++ (showImportedLibraries ["libc.so.6", "libc.so.6"]).out
        ++ (showImportedSymbols [⟨"printf", "GLIBC_2.2.5", "libc.so.6"⟩]).out
        ++ [.close]) ()
    ∧ ∀ v, Printed v (main exStringers (fun _ => .ok exFile)
        ("readelf" :: (["-h"] ++ "a.out" :: ["-a"]))).out :=
  all_flag_prints_seven_views exStringers (fun _ => .ok exFile) "readelf" "a.out" ["-h"]
    ["-a"] exFile [] [⟨"printf", 18, 0, 0, 0, 0⟩] ["libc.so.6", "libc.so.6"]
    [⟨"printf", "GLIBC_2.2.5", "libc.so.6"⟩]
    (by decide) (by decide) (by decide) (by decide) rfl rfl rfl rfl rfl

/-- Claim C3. For every argument list in which every argument after the
program name starts with `-`, the empty list and the list of the program
name alone included, `main` prints the usage text and exits with status 1,
without opening a file and without printing a view. -/
theorem only_dash_arguments_print_usage (S : Stringers)
    (Open : String → Except GoError File) (args : List String)
    (h : ∀ arg ∈ args.tail, arg.data.head? = some '-') :
    main S Open args = Run.exit showUsage.out 1 ∧
      (main S Open args).status = 1 ∧
      (∀ name, Event.open name ∉ (main S Open args).out) ∧
      ∀ v, ¬ Printed v (main S Open args).out := by
  have hm : main S Open args = Run.exit showUsage.out 1 := by
    rw [main_eq, if_pos (argLoop_elfPath args h)]
  rw [hm]
  refine ⟨rfl, rfl, ?_, fun v => printed_usage v⟩
  intro name
  rw [showUsage_eq]
  simp [Run.out]

/-- Claim C3 on the arguments `readelf -h -S`. -/
theorem only_dash_arguments_print_usage_witness :
    main exStringers (fun _ => .ok exFile) ["readelf", "-h", "-S"]
        = Run.exit showUsage.out 1 ∧
      (main exStringers (fun _ => .ok exFile) ["readelf", "-h", "-S"]).status = 1 ∧
      (∀ name, Event.open name ∉
        (main exStringers (fun _ => .ok exFile) ["readelf", "-h", "-S"]).out) ∧
      ∀ v, ¬ Printed v (main exStringers (fun _ => .ok exFile) ["readelf", "-h", "-S"]).out :=
  only_dash_arguments_print_usage exStringers (fun _ => .ok exFile) ["readelf", "-h", "-S"]
    (by decide)

/-- Claim C8. In a run in which the lookup of a requested view returns an
error, the run having reached it (no requested lookup before it fails), the
program logs the error and exits with status 1 at that point: the trace is
the open of the file, the blocks of the requested views that come before
in the fixed order, each in full, and the log line; the views printed are
exactly the requested views before it, the file is not closed. -/
theorem failing_lookup_ends_run (S : Stringers) (Open : String → Except GoError File)
    (args : List String) (f : File) (v : View) (e : GoError)
    (hp : (argLoop args).elfPath ≠ "")
    (hO : Open (argLoop args).elfPath = .ok f)
    (hr : requested (argLoop args) v = true) (he : lookupError f v = some e)
    (hfirst : ∀ w, w.order < v.order → requested (argLoop args) w = true →
      lookupError f w = none) :
    main S Open args = Run.exit
      ([.open (argLoop args).elfPath] ++ blocks S (argLoop args) f (viewsBefore v)
        ++ [.log e]) 1 ∧
      (main S Open args).status = 1 ∧
      (∀ w, Printed w (main S Open args).out ↔
        requested (argLoop args) w = true ∧ w.order < v.order) ∧
      (∀ w, requested (argLoop args) w = true → v.order ≤ w.order →
        ¬ Printed w (main S Open args).out) := by
  have hm := main_error S Open args f v e hp hO hr he hfirst
  have hpr := printed_main_error S Open args f v e hp hO hr he hfirst
  refine ⟨hm, by rw [hm]; rfl, hpr, ?_⟩
  intro w _ hle hprinted
  exact absurd ((hpr w).1 hprinted).2 (Nat.not_lt.2 hle)

/-- Claim C8 on the arguments `readelf -a a.out` with a failing
`Symbols()`: header, sections and programs are printed, the four other
views are not. -/
theorem failing_lookup_ends_run_witness :
    main exStringers (fun _ => .ok exFileNoSymbols) ["readelf", "-a", "a.out"] = Run.exit
      ([.open (argLoop ["readelf", "-a", "a.out"]).elfPath]
        ++ blocks exStringers (argLoop ["readelf", "-a", "a.out"]) exFileNoSymbols
            (viewsBefore .symbols)
        ++ [.log ⟨"bad symbol table"⟩]) 1 ∧
      (main exStringers (fun _ => .ok exFileNoSymbols) ["readelf", "-a", "a.out"]).status = 1 ∧
      (∀ w, Printed w
          (main exStringers (fun _ => .ok exFileNoSymbols) ["readelf", "-a", "a.out"]).out ↔
        requested (argLoop ["readelf", "-a", "a.out"]) w = true ∧
          w.order < View.symbols.order) ∧
      (∀ w, requested (argLoop ["readelf", "-a", "a.out"]) w = true →
        View.symbols.order ≤ w.order →
        ¬ Printed w
          (main exStringers (fun _ => .ok exFileNoSymbols) ["readelf", "-a", "a.out"]).out) :=
  failing_lookup_ends_run exStringers (fun _ => .ok exFileNoSymbols)
    ["readelf", "-a", "a.out"] exFileNoSymbols .symbols ⟨"bad symbol table"⟩
    (by decide) rfl (by decide) rfl
    (by intro w hw _; cases w <;> first | rfl | exact absurd hw (by decide))

/-! ### A view the run reaches -/

theorem Run.out_prepend {α : Type} (o : List Event) (r : Run α) :
    (Run.prepend o r).out = o ++ r.out := by
  cases r <;> rfl

theorem deferClose_out (r : Run Unit) : ∃ tail, (deferClose r).out = r.out ++ tail := by
  cases r with
  | done o a => exact ⟨[.close], rfl⟩
  | exit o s => exact ⟨[], by simp [deferClose, Run.out]⟩

theorem runViews_prefix (S : Stringers) (g : Globals) (f : File) (pre post : List View)
    (h : ∀ w ∈ pre, requested g w = true → lookupError f w = none) :
    runViews S g f (pre ++ post) = Run.prepend (blocks S g f pre) (runViews S g f post) := by
  induction pre with
  | nil =>
    show runViews S g f post = Run.prepend [] (runViews S g f post)
    cases runViews S g f post <;> rfl
  | cons w ws ih =>
    have ih2 := ih (fun u hu => h u (List.mem_cons_of_mem _ hu))
    rw [List.cons_append]
    cases hw : requested g w with
    | false => rw [runViews_cons_false S g f w _ hw, blocks_cons_false S g f w ws hw, ih2]
    | true =>
      rw [runViews_cons_true S g f w _ hw (h w (List.mem_cons_self _ _) hw),
        blocks_cons_true S g f w ws hw, ih2]
      cases runViews S g f post <;> simp [Run.prepend]

/-- A run that reaches a requested view whose lookup succeeds prints the
block of that view right after the blocks of the requested views before. -/
theorem main_prints_block (S : Stringers) (Open : String → Except GoError File)
    (args : List String) (f : File) (v : View)
    (hp : (argLoop args).elfPath ≠ "")
    (hO : Open (argLoop args).elfPath = .ok f)
    (hr : requested (argLoop args) v = true) (hl : lookupError f v = none)
    (h : ∀ w, w.order < v.order → requested (argLoop args) w = true →
      lookupError f w = none) :
    ∃ post, (main S Open args).out =
      [.open (argLoop args).elfPath] ++ blocks S (argLoop args) f (viewsBefore v)
        ++ block S f v ++ post := by
  rw [main_eq, if_neg hp, hO]
  simp only []
  rw [all_split v, runViews_prefix S _ f (viewsBefore v) (v :: viewsAfter v)
    (fun w hw => h w ((mem_viewsBefore v w).1 hw)),
    runViews_cons_true S _ f v _ hr hl]
  obtain ⟨tail, ht⟩ := deferClose_out
    (Run.prepend (blocks S (argLoop args) f (viewsBefore v))
      (Run.prepend (block S f v) (runViews S (argLoop args) f (viewsAfter v))))
  refine ⟨(runViews S (argLoop args) f (viewsAfter v)).out ++ tail, ?_⟩
  rw [Run.out_prepend, ht, Run.out_prepend, Run.out_prepend]
  simp [List.append_assoc]

/-! ### The claims about the imported libraries and the imported symbols -/

/-- Claim C4. For every list of library names that `ImportedLibraries()`
returns, `showImportedLibraries` prints its two heading lines and then
exactly one row per entry, in the same order, row `k` numbered `k` and
carrying the `k`-th name, with no deduplication: two entries of the same
name give two rows with that name; and a run of `main` that reaches the
imported-libraries view prints exactly these lines for the list the lookup
returned. -/
theorem imported_libraries_one_row_per_entry (libraries : List String) :
    (∃ rows : List Event, showImportedLibraries libraries = Run.done
        (.printf "ELF ImportedLibraries:\n" [] ::
         .printf "  [%2s] %s\n" [.str "Nr", .str "Name"] :: rows) () ∧
      rows.length = libraries.length ∧
      ∀ k name, libraries[k]? = some name →
        rows[k]? = some (Event.printf "  [%2d] %-30s\n" [.int k, .str name])) ∧
    (∀ name : String, showImportedLibraries [name, name] = Run.done
        [.printf "ELF ImportedLibraries:\n" [],
         .printf "  [%2s] %s\n" [.str "Nr", .str "Name"],
         .printf "  [%2d] %-30s\n" [.int 0, .str name],
         .printf "  [%2d] %-30s\n" [.int 1, .str name]] ()) ∧
    (∀ (S : Stringers) (Open : String → Except GoError File) (args : List String)
        (f : File),
      (argLoop args).elfPath ≠ "" → Open (argLoop args).elfPath = .ok f →
      f.ImportedLibraries = .ok libraries →
      requested (argLoop args) .importedLibraries = true →
      (∀ w, w.order < View.importedLibraries.order → requested (argLoop args) w = true →
        lookupError f w = none) →
      ∃ post, (main S Open args).out =
        [.open (argLoop args).elfPath]
          ++ blocks S (argLoop args) f (viewsBefore .importedLibraries)
          ++ (showImportedLibraries libraries).out ++ post) := by
  refine ⟨⟨libraries.enum.map (fun p => .printf "  [%2d] %-30s\n" [.int p.1, .str p.2]),
    showImportedLibraries_eq libraries, by simp, ?_⟩, ?_, ?_⟩
  · intro k name hk
    simp [List.getElem?_map, List.getElem?_enum, hk]
  · intro name
    rw [showImportedLibraries_eq]
    rfl
  · intro S Open args f hp hO hlib hr hbefore
    have hl : lookupError f .importedLibraries = none := by simp [lookupError, hlib]
    obtain ⟨post, hpost⟩ :=
      main_prints_block S Open args f .importedLibraries hp hO hr hl hbefore
    refine ⟨post, ?_⟩
    rw [hpost]
    simp [block, viewRun, hlib]

/-- Claim C4 on a run `readelf -I a.out` over a file with two needed
entries of the same name. -/
theorem imported_libraries_one_row_per_entry_witness :
    ∃ post, (main exStringers (fun _ => .ok exFile) ["readelf", "-I", "a.out"]).out =
      [.open "a.out"]
        ++ blocks exStringers (argLoop ["readelf", "-I", "a.out"]) exFile
            (viewsBefore .importedLibraries)
        ++ (showImportedLibraries ["libc.so.6", "libc.so.6"]).out ++ post :=
  (imported_libraries_one_row_per_entry ["libc.so.6", "libc.so.6"]).2.2
    exStringers (fun _ => .ok exFile) ["readelf", "-I", "a.out"] exFile
    (by decide) rfl rfl (by decide) (by intro w _ hw; revert hw; cases w <;> decide)

/-! ### The Version Resolver of the specification -/

theorem resolveSymbol_some (reqs : List VersionRequirement) (versym : List Nat) (k : Nat)
    (sym : Symbol) (s : ImportedSymbol) (h : resolveSymbol reqs versym k sym = some s) :
    ∃ idx ver lib, versym[k]? = some idx ∧ idx ≠ 0 ∧ idx ≠ 1 ∧
      findVersion reqs idx = some (ver, lib) ∧ s = ⟨sym.Name, ver, lib⟩ := by
  unfold resolveSymbol at h
  cases hv : versym[k]? with
  | none => simp [hv] at h
  | some idx =>
    simp only [hv] at h
    by_cases hi : idx = 0 ∨ idx = 1
    · simp [hi] at h
    · rw [if_neg hi] at h
      cases hf : findVersion reqs idx with
      | none => simp [hf] at h
      | some p =>
        obtain ⟨ver, lib⟩ := p
        simp only [hf, Option.some.injEq] at h
        exact ⟨idx, ver, lib, rfl, fun h0 => hi (Or.inl h0), fun h1 => hi (Or.inr h1), hf,
          h.symm⟩

theorem resolveSymbol_none (reqs : List VersionRequirement) (versym : List Nat) (k : Nat)
    (sym : Symbol)
    (h : versym[k]? = none ∨ versym[k]? = some 0 ∨ versym[k]? = some 1 ∨
      ∃ idx, versym[k]? = some idx ∧ findVersion reqs idx = none) :
    resolveSymbol reqs versym k sym = none := by
  unfold resolveSymbol
  rcases h with h | h | h | ⟨idx, h, hf⟩
  · simp [h]
  · simp [h]
  · simp [h]
  · simp only [h, hf]
    split <;> rfl

theorem resolveFrom_mem (reqs : List VersionRequirement) (versym : List Nat)
    (syms : List Symbol) :
    ∀ (k : Nat) (s : ImportedSymbol), s ∈ resolveFrom reqs versym k syms →
      ∃ j sym, syms[j]? = some sym ∧ resolveSymbol reqs versym (k + j) sym = some s := by
  induction syms with
  | nil => intro k s h; simp [resolveFrom] at h
  | cons sym rest ih =>
    intro k s h
    unfold resolveFrom at h
    cases hr : resolveSymbol reqs versym k sym with
    | none =>
      simp only [hr] at h
      obtain ⟨j, sym2, hj, hs⟩ := ih (k + 1) s h
      exact ⟨j + 1, sym2, by simpa using hj, by rw [← hs]; congr 1; omega⟩
    | some s2 =>
      simp only [hr, List.mem_cons] at h
      rcases h with h | h
      · exact ⟨0, sym, by simp, by rw [h]; exact hr⟩
      · obtain ⟨j, sym2, hj, hs⟩ := ih (k + 1) s h
        exact ⟨j + 1, sym2, by simpa using hj, by rw [← hs]; congr 1; omega⟩

theorem resolveFrom_append (reqs : List VersionRequirement) (versym : List Nat)
    (pre rest : List Symbol) :
    ∀ k, resolveFrom reqs versym k (pre ++ rest)
      = resolveFrom reqs versym k pre ++ resolveFrom reqs versym (k + pre.length) rest := by
  induction pre with
  | nil => intro k; simp [resolveFrom]
  | cons sym ps ih =>
    intro k
    have hk : k + (sym :: ps).length = k + 1 + ps.length := by simp; omega
    rw [List.cons_append, resolveFrom, resolveFrom, ih (k + 1), hk]
    cases resolveSymbol reqs versym k sym <;> simp

/-- Claim C6. Over the Version Resolver of the specification: every row
that `showImportedSymbols` prints for the list `ImportedSymbols()` returns
is the row of a dynamic symbol whose version index is neither 0 nor 1 and
resolves through the version-requirement records, one row per entry of the
list; a dynamic symbol with version index 1 (or 0), with no version index,
or with an unresolved index adds no entry to the list, which is the entries
of the symbols before it followed by those of the symbols after it; and
without a versioning table the list is empty. -/
theorem imported_symbols_rows_are_versioned (t : Tables) (result : List ImportedSymbol)
    (h : specImportedSymbols t = .ok result) :
    (∃ rows : List Event, showImportedSymbols result = Run.done
        (.printf "ELF ImportedSymbols:\n" [] ::
         .printf "  [%2s] %-30s %-10s %s\n"
           [.str "Nr", .str "Name", .str "Version", .str "Library"] :: rows) () ∧
      rows.length = result.length ∧
      ∀ k row, rows[k]? = some row →
        ∃ (syms : List Symbol) (versym : List Nat) (reqs : List VersionRequirement)
            (j : Nat) (sym : Symbol) (idx : Nat) (ver lib : String),
          specDynamicSymbols t = .ok syms ∧ t.versym = some (.ok versym) ∧
          orEmpty t.verneed = .ok reqs ∧
          syms[j]? = some sym ∧ versym[j]? = some idx ∧ idx ≠ 0 ∧ idx ≠ 1 ∧
          findVersion reqs idx = some (ver, lib) ∧
          result[k]? = some ⟨sym.Name, ver, lib⟩ ∧
          row = Event.printf "  [%2d] %-30s %-10s %s\n"
            [.int k, .str sym.Name, .str ver, .str lib]) ∧
    (∀ (versym : List Nat) (reqs : List VersionRequirement) (pre post : List Symbol)
        (sym : Symbol),
      specDynamicSymbols t = .ok (pre ++ sym :: post) → t.versym = some (.ok versym) →
      orEmpty t.verneed = .ok reqs →
      (versym[pre.length]? = none ∨ versym[pre.length]? = some 0 ∨
        versym[pre.length]? = some 1 ∨
        ∃ idx, versym[pre.length]? = some idx ∧ findVersion reqs idx = none) →
      result = resolveFrom reqs versym 0 pre
        ++ resolveFrom reqs versym (pre.length + 1) post) ∧
    (t.versym = none → result = []) := by
  refine ⟨⟨result.enum.map (fun p => .printf "  [%2d] %-30s %-10s %s\n"
      [.int p.1, .str p.2.Name, .str p.2.Version, .str p.2.Library]),
    showImportedSymbols_eq result, by simp, ?_⟩, ?_, ?_⟩
  · intro k row hrow
    unfold specImportedSymbols at h
    cases hd : specDynamicSymbols t with
    | error err => simp [hd] at h
    | ok syms =>
      simp only [hd] at h
      cases hv : t.versym with
      | none =>
        simp only [hv, Except.ok.injEq] at h
        subst h
        simp at hrow
      | some rv =>
        cases rv with
        | error err => simp [hv] at h
        | ok versym =>
          simp only [hv] at h
          cases hn : orEmpty t.verneed with
          | error err => simp [hn] at h
          | ok reqs =>
            simp only [hn, Except.ok.injEq] at h
            simp only [List.getElem?_map, List.getElem?_enum, Option.map_eq_some'] at hrow
            obtain ⟨p, ⟨s, hs, hp⟩, hrow⟩ := hrow
            subst hp
            have hmem : s ∈ resolveFrom reqs versym 0 syms := by
              rw [h]; exact List.getElem?_mem hs
            obtain ⟨j, sym, hj, hres⟩ := resolveFrom_mem reqs versym syms 0 s hmem
            rw [Nat.zero_add] at hres
            obtain ⟨idx, ver, lib, hidx, h0, h1, hf, hs2⟩ :=
              resolveSymbol_some reqs versym j sym s hres
            subst hs2
            exact ⟨syms, versym, reqs, j, sym, idx, ver, lib, rfl, rfl, rfl, hj, hidx, h0, h1,
              hf, hs, hrow.symm⟩
  · intro versym reqs pre post sym hd hv hn hidx
    unfold specImportedSymbols at h
    simp only [hd, hv, hn, Except.ok.injEq] at h
    rw [← h, resolveFrom_append, Nat.zero_add, resolveFrom,
      resolveSymbol_none reqs versym pre.length sym hidx]
  · intro hv
    unfold specImportedSymbols at h
    cases hd : specDynamicSymbols t with
    | error err => simp [hd] at h
    | ok syms =>
      simp only [hd, hv, Except.ok.injEq] at h
      exact h.symm

/-- Claim C6 on a file with the dynamic symbols printf (index 2, known to
the record of libc.so.6), environ (index 1), an unnamed symbol (index 0)
and dlopen (index 7, unresolved): the lookup returns the entry of printf
alone, and every row printed for it is the row of a versioned symbol. -/
theorem imported_symbols_rows_are_versioned_witness :
    specImportedSymbols exTablesVersioned = .ok [⟨"printf", "GLIBC_2.2.5", "libc.so.6"⟩] ∧
    ∃ rows : List Event,
      showImportedSymbols [⟨"printf", "GLIBC_2.2.5", "libc.so.6"⟩] = Run.done
        (.printf "ELF ImportedSymbols:\n" [] ::
         .printf "  [%2s] %-30s %-10s %s\n"
           [.str "Nr", .str "Name", .str "Version", .str "Library"] :: rows) () ∧
      rows.length = [(⟨"printf", "GLIBC_2.2.5", "libc.so.6"⟩ : ImportedSymbol)].length ∧
      ∀ k row, rows[k]? = some row →
        ∃ (syms : List Symbol) (versym : List Nat) (reqs : List VersionRequirement)
            (j : Nat) (sym : Symbol) (idx : Nat) (ver lib : String),
          specDynamicSymbols exTablesVersioned = .ok syms ∧
          exTablesVersioned.versym = some (.ok versym) ∧
          orEmpty exTablesVersioned.verneed = .ok reqs ∧
          syms[j]? = some sym ∧ versym[j]? = some idx ∧ idx ≠ 0 ∧ idx ≠ 1 ∧
          findVersion reqs idx = some (ver, lib) ∧
          [(⟨"printf", "GLIBC_2.2.5", "libc.so.6"⟩ : ImportedSymbol)][k]?
            = some ⟨sym.Name, ver, lib⟩ ∧
          row = Event.printf "  [%2d] %-30s %-10s %s\n"
            [.int k, .str sym.Name, .str ver, .str lib] :=
  ⟨rfl, (imported_symbols_rows_are_versioned exTablesVersioned
      [⟨"printf", "GLIBC_2.2.5", "libc.so.6"⟩] rfl).1⟩

/-! ### The claims about missing tables and the magic signature -/

theorem mem_viewsAfter (v w : View) : w ∈ viewsAfter v ↔ v.order < w.order := by
  simp [viewsAfter, mem_all]

theorem order_inj (v w : View) (h : v.order = w.order) : v = w := by
  cases v <;> cases w <;> first | rfl | exact absurd h (by decide)

theorem Run.prepend_prepend {α : Type} (o1 o2 : List Event) (r : Run α) :
    Run.prepend o1 (Run.prepend o2 r) = Run.prepend (o1 ++ o2) r := by
  cases r <;> simp [Run.prepend]

theorem deferClose_prepend (o : List Event) (r : Run Unit) :
    deferClose (Run.prepend o r) = Run.prepend o (deferClose r) := by
  cases r <;> simp [Run.prepend, deferClose]

/-- A run that reaches a requested view whose lookup succeeds prints the
blocks of the requested views before it and its block, and goes on with the
guarded statements of the views after it. -/
theorem main_reaches (S : Stringers) (Open : String → Except GoError File)
    (args : List String) (f : File) (v : View)
    (hp : (argLoop args).elfPath ≠ "")
    (hO : Open (argLoop args).elfPath = .ok f)
    (hr : requested (argLoop args) v = true) (hl : lookupError f v = none)
    (h : ∀ w, w.order < v.order → requested (argLoop args) w = true →
      lookupError f w = none) :
    main S Open args = Run.prepend
      ([.open (argLoop args).elfPath] ++ blocks S (argLoop args) f (viewsBefore v)
        ++ block S f v)
      (deferClose (runViews S (argLoop args) f (viewsAfter v))) := by
  rw [main_eq, if_neg hp, hO]
  simp only []
  rw [all_split v, runViews_prefix S _ f (viewsBefore v) (v :: viewsAfter v)
    (fun w hw => h w ((mem_viewsBefore v w).1 hw)),
    runViews_cons_true S _ f v _ hr hl, deferClose_prepend, deferClose_prepend,
    Run.prepend_prepend, Run.prepend_prepend]

/-- Over the decoder of the specification, the lookup for a missing dynamic
section succeeds with no entry, and so does the lookup for missing
versioning when the dynamic symbols are there. -/
theorem lacks_empty (S : Stringers) (base : File) (t : Tables) (v : View)
    (hv : v = .importedLibraries ∨ v = .importedSymbols) (hl : Lacks t v)
    (hd : v = .importedSymbols → lookupError (specFile base t) .dynamicSymbols = none) :
    lookupError (specFile base t) v = none ∧ block S (specFile base t) v = emptyView S v := by
  rcases hv with hv | hv
  · subst hv
    simp only [Lacks] at hl
    simp [lookupError, block, viewRun, specFile, specImportedLibraries, hl, orEmpty,
      emptyView]
  · subst hv
    simp only [Lacks] at hl
    have hds := hd rfl
    simp only [lookupError, specFile] at hds
    cases hs : specDynamicSymbols t with
    | error e => simp [hs] at hds
    | ok syms =>
      simp [lookupError, block, viewRun, specFile, specImportedSymbols, hs, hl, emptyView]

/-- Claim C5, as amended. Over the decoder of the specification: for every
file that lacks a dynamic section, or that lacks versioning while its
dynamic symbols lookup succeeds, a run that requests the corresponding view
(imported libraries, imported symbols) and reaches it, no requested lookup
before it failing, shows that view as an empty result (its first line and
its heading, no rows) after the requested views before it, and goes on
with the views requested after it; when the lookups of those succeed too,
the run completes with status 0, closes the file, and every requested view
is shown. A missing symbol table or dynamic symbol table is left out. -/
theorem missing_table_prints_empty_view (S : Stringers)
    (Open : String → Except GoError File) (args : List String) (base : File) (t : Tables)
    (v : View) (hp : (argLoop args).elfPath ≠ "")
    (hO : Open (argLoop args).elfPath = .ok (specFile base t))
    (hv : v = .importedLibraries ∨ v = .importedSymbols) (hl : Lacks t v)
    (hd : v = .importedSymbols → lookupError (specFile base t) .dynamicSymbols = none)
    (hr : requested (argLoop args) v = true)
    (hreach : ∀ w, w.order < v.order → requested (argLoop args) w = true →
      lookupError (specFile base t) w = none) :
    lookupError (specFile base t) v = none ∧
      main S Open args = Run.prepend
        ([.open (argLoop args).elfPath]
          ++ blocks S (argLoop args) (specFile base t) (viewsBefore v)
          ++ emptyView S v)
        (deferClose (runViews S (argLoop args) (specFile base t) (viewsAfter v))) ∧
      Printed v (main S Open args).out ∧
      ((∀ w, v.order < w.order → requested (argLoop args) w = true →
          lookupError (specFile base t) w = none) →
        main S Open args = Run.done
          ([.open (argLoop args).elfPath]
            ++ blocks S (argLoop args) (specFile base t) (viewsBefore v)
            ++ emptyView S v
            ++ blocks S (argLoop args) (specFile base t) (viewsAfter v)
            ++ [.close]) () ∧
        (main S Open args).status = 0 ∧
        ∀ w, requested (argLoop args) w = true → Printed w (main S Open args).out) := by
  obtain ⟨hlook, hblock⟩ := lacks_empty S base t v hv hl hd
  have hm := main_reaches S Open args (specFile base t) v hp hO hr hlook hreach
  rw [hblock] at hm
  have hle : ∀ w, w.order ≤ v.order → requested (argLoop args) w = true →
      lookupError (specFile base t) w = none := by
    intro w hw hrw
    rcases Nat.lt_or_eq_of_le hw with h | h
    · exact hreach w h hrw
    · rw [order_inj w v h]; exact hlook
  refine ⟨hlook, hm, (printed_iff S Open args v).2 ⟨hr, hp, _, hO, hle⟩, ?_⟩
  intro hafter
  have hok : ∀ w, requested (argLoop args) w = true →
      lookupError (specFile base t) w = none := by
    intro w hrw
    rcases Nat.lt_or_ge v.order w.order with h | h
    · exact hafter w h hrw
    · exact hle w h hrw
  have hdone : main S Open args = Run.done
      ([.open (argLoop args).elfPath]
        ++ blocks S (argLoop args) (specFile base t) (viewsBefore v)
        ++ emptyView S v
        ++ blocks S (argLoop args) (specFile base t) (viewsAfter v)
        ++ [.close]) () := by
    rw [hm, runViews_ok S _ _ (viewsAfter v)
      (fun w hw => hafter w ((mem_viewsAfter v w).1 hw))]
    simp [deferClose, Run.prepend]
  refine ⟨hdone, by rw [hdone]; rfl, ?_⟩
  intro w hrw
  exact (printed_main_ok S Open args (specFile base t) hp hO hok w).2 hrw

/-- Claim C5 on a run `readelf -dIi a.out` over a file that has a dynamic
symbol table and no dynamic section: the imported libraries are shown as
an empty result after the dynamic symbols, and the run goes on. -/
theorem missing_table_prints_empty_view_witness :
    lookupError (specFile exFile exTablesBare) .importedLibraries = none ∧
      main exStringers (fun _ => .ok (specFile exFile exTablesBare))
          ["readelf", "-dIi", "a.out"] = Run.prepend
        ([.open (argLoop ["readelf", "-dIi", "a.out"]).elfPath]
          ++ blocks exStringers (argLoop ["readelf", "-dIi", "a.out"])
              (specFile exFile exTablesBare) (viewsBefore .importedLibraries)
          ++ emptyView exStringers .importedLibraries)
        (deferClose (runViews exStringers (argLoop ["readelf", "-dIi", "a.out"])
          (specFile exFile exTablesBare) (viewsAfter .importedLibraries))) ∧
      Printed .importedLibraries
        (main exStringers (fun _ => .ok (specFile exFile exTablesBare))
          ["readelf", "-dIi", "a.out"]).out ∧
      ((∀ w, View.importedLibraries.order < w.order →
          requested (argLoop ["readelf", "-dIi", "a.out"]) w = true →
          lookupError (specFile exFile exTablesBare) w = none) →
        main exStringers (fun _ => .ok (specFile exFile exTablesBare))
            ["readelf", "-dIi", "a.out"] = Run.done
          ([.open (argLoop ["readelf", "-dIi", "a.out"]).elfPath]
            ++ blocks exStringers (argLoop ["readelf", "-dIi", "a.out"])
                (specFile exFile exTablesBare) (viewsBefore .importedLibraries)
            ++ emptyView exStringers .importedLibraries
            ++ blocks exStringers (argLoop ["readelf", "-dIi", "a.out"])
                (specFile exFile exTablesBare) (viewsAfter .importedLibraries)
            ++ [.close]) () ∧
        (main exStringers (fun _ => .ok (specFile exFile exTablesBare))
          ["readelf", "-dIi", "a.out"]).status = 0 ∧
        ∀ w, requested (argLoop ["readelf", "-dIi", "a.out"]) w = true →
          Printed w (main exStringers (fun _ => .ok (specFile exFile exTablesBare))
            ["readelf", "-dIi", "a.out"]).out) :=
  missing_table_prints_empty_view exStringers (fun _ => .ok (specFile exFile exTablesBare))
    ["readelf", "-dIi", "a.out"] exFile exTablesBare .importedLibraries (by decide) rfl
    (by decide) (by decide) (by decide) (by decide) (by intro w; cases w <;> decide)

/-- Claim C5 as stated fails, on a file with none of the optional tables
read by a library that reports a missing symbol section as `ErrNoSymbols`.
The run `readelf -s a.out` requests the symbols view of a file without
symbol table: it logs the error and exits with status 1, the view is not
shown. The run `readelf -a a.out` requests the imported libraries of a file
without dynamic section: it ends at the symbols and the view is not shown.
The run `readelf -Ii a.out` shows the imported libraries as an empty
result, then exits with status 1: the imported symbols requested after it
are not shown, although the file has no versioning. -/
theorem missing_symbol_table_is_fatal :
    (Lacks exTablesNone .symbols ∧
      requested (argLoop ["readelf", "-s", "a.out"]) .symbols = true ∧
      main exStringers (fun _ => .ok (specFile exFile exTablesNone))
          ["readelf", "-s", "a.out"]
        = Run.exit [.open "a.out", .log ErrNoSymbols] 1) ∧
    (Lacks exTablesNone .importedLibraries ∧
      requested (argLoop ["readelf", "-a", "a.out"]) .importedLibraries = true ∧
      (main exStringers (fun _ => .ok (specFile exFile exTablesNone))
        ["readelf", "-a", "a.out"]).status = 1 ∧
      ¬ Printed .importedLibraries
        (main exStringers (fun _ => .ok (specFile exFile exTablesNone))
          ["readelf", "-a", "a.out"]).out) ∧
    (Lacks exTablesNone .importedSymbols ∧
      requested (argLoop ["readelf", "-Ii", "a.out"]) .importedSymbols = true ∧
      main exStringers (fun _ => .ok (specFile exFile exTablesNone))
          ["readelf", "-Ii", "a.out"]
        = Run.exit ([.open "a.out"] ++ emptyView exStringers .importedLibraries
            ++ [.log ErrNoSymbols]) 1 ∧
      ¬ Printed .importedSymbols
        (main exStringers (fun _ => .ok (specFile exFile exTablesNone))
          ["readelf", "-Ii", "a.out"]).out) := by
  decide

/-- Claim C7. Over the decoder of the specification: for every input whose
first four bytes are not the magic signature, decoding fails, with the
BadMagic error when the input has four bytes; in the program, when the path
names such a file, opening fails, `main` logs the error and exits with
status 1, and no view is printed, whatever flags are given. -/
theorem bad_magic_prints_no_view (S : Stringers)
    (readFile : String → Except GoError (List Nat))
    (rest : List Nat → Except GoError File) (args : List String) (buf : List Nat)
    (hp : (argLoop args).elfPath ≠ "")
    (hread : readFile (argLoop args).elfPath = .ok buf)
    (hmagic : buf.take 4 ≠ ELFMAG) :
    ∃ err, decodeFile rest buf = .error err ∧
      (4 ≤ buf.length → err = BadMagic) ∧
      specOpen readFile rest (argLoop args).elfPath = .error err ∧
      main S (specOpen readFile rest) args
        = Run.exit [.open (argLoop args).elfPath, .log err] 1 ∧
      (main S (specOpen readFile rest) args).status = 1 ∧
      ∀ v, ¬ Printed v (main S (specOpen readFile rest) args).out := by
  have hd : ∃ err, decodeFile rest buf = .error err ∧ (4 ≤ buf.length → err = BadMagic) := by
    unfold decodeFile readAt
    by_cases hlen : 4 ≤ buf.length
    · exact ⟨BadMagic, by simp [hlen, hmagic], fun _ => rfl⟩
    · exact ⟨OutOfBounds, by simp [hlen], fun h => absurd h hlen⟩
  obtain ⟨err, hd, hbad⟩ := hd
  have ho : specOpen readFile rest (argLoop args).elfPath = .error err := by
    unfold specOpen
    rw [hread]
    exact hd
  have hm : main S (specOpen readFile rest) args
      = Run.exit [.open (argLoop args).elfPath, .log err] 1 := by
    rw [main_eq, if_neg hp, ho]
  refine ⟨err, hd, hbad, ho, hm, by rw [hm]; rfl, ?_⟩
  intro v hv
  have h := (printed_iff S (specOpen readFile rest) args v).1 hv
  obtain ⟨_, _, f, hf, _⟩ := h
  rw [ho] at hf
  cases hf

/-- Claim C7 on a run `readelf -a notes.txt` over a text file that starts
with the bytes of "hello". -/
theorem bad_magic_prints_no_view_witness :
    ∃ err, decodeFile (fun _ => .ok exFile) [104, 101, 108, 108, 111] = .error err ∧
      (4 ≤ [104, 101, 108, 108, 111].length → err = BadMagic) ∧
      specOpen (fun _ => .ok [104, 101, 108, 108, 111]) (fun _ => .ok exFile)
        (argLoop ["readelf", "-a", "notes.txt"]).elfPath = .error err ∧
      main exStringers (specOpen (fun _ => .ok [104, 101, 108, 108, 111])
          (fun _ => .ok exFile)) ["readelf", "-a", "notes.txt"]
        = Run.exit [.open (argLoop ["readelf", "-a", "notes.txt"]).elfPath, .log err] 1 ∧
      (main exStringers (specOpen (fun _ => .ok [104, 101, 108, 108, 111])
          (fun _ => .ok exFile)) ["readelf", "-a", "notes.txt"]).status = 1 ∧
      ∀ v, ¬ Printed v (main exStringers (specOpen (fun _ => .ok [104, 101, 108, 108, 111])
          (fun _ => .ok exFile)) ["readelf", "-a", "notes.txt"]).out :=
  bad_magic_prints_no_view exStringers (fun _ => .ok [104, 101, 108, 108, 111])
    (fun _ => .ok exFile) ["readelf", "-a", "notes.txt"] [104, 101, 108, 108, 111]
    (by decide) rfl (by decide)

end Readelf
